import Mathlib

/-!
Shallow embedding of the WA electric-vehicle ETL pipeline
(`src/etl_ev_population.py`) and verification of the frozen claims.

The script is a straight-line pandas program.  A table is modelled as a
`List` of rows; a missing cell (pandas `NaN`) is `Option.none`.  Each
pandas statement is translated to a Lean function on tables, in the order
the script executes them:

  1. jurisdiction filter        `dt = dt[dt[State] == WA]`
  2. field normalizer           `astype(float)` / `astype(int)`   (can fail)
  3. geo extractor              `str.extract` of the POINT pattern
  4. imputer                    zero -> NaN, then cascading group medians
  5. categorical encoder        `Series.replace` with literal dictionaries
  6. dimensionalizer            `drop_duplicates` + `reset_index` + `merge`
  7. fact assembler             projection plus a 1-based row id

pandas semantics that matter and are modelled explicitly:
  * `groupby` (default `dropna=True`) excludes rows whose group key holds a
    null; `transform` hands those rows back a null.
  * `drop_duplicates` and `merge` treat null keys as equal to null keys.
  * `Series.median()` skips nulls and averages the two middle values for an
    even count.
  * a left `merge` with several key matches fans out and with none yields a
    null foreign key.
-/

/-- Euclid with explicit fuel, so the kernel can evaluate it: the first
argument bounds the number of steps (each step strictly shrinks `a`). -/

def gcdFuel : Nat → Nat → Nat → Nat
  | 0, _, b => b
  | _ + 1, 0, b => b
  | fuel + 1, a + 1, b => gcdFuel fuel (b % (a + 1)) (a + 1)

/-- Greatest common divisor, kernel-computable. -/

def natGcd (a b : Nat) : Nat := gcdFuel a a b

/-- Exact rational numbers in lowest terms, standing in for Python floats.
All input numbers come from decimal text, so rationals are a faithful and
kernel-computable value model; every `Q` built below is normalized, hence
pandas float equality (used by `replace`, `drop_duplicates`, `merge`) is
structural equality. -/

structure Q where
  num : Int
  den : Nat
  deriving DecidableEq, Repr

/-- Normalize a numerator / denominator pair to lowest terms. -/

def mkQ (n : Int) (d : Nat) : Q :=
  let g := natGcd n.natAbs d
  if g = 0 then ⟨0, 1⟩ else ⟨n / (g : Int), d / g⟩

/-- The rational `n / 1`. -/

def intQ (n : Int) : Q := ⟨n, 1⟩

/-- Addition on `Q`. -/

def Q.add (a b : Q) : Q := mkQ (a.num * b.den + b.num * a.den) (a.den * b.den)

/-- Negation on `Q`. -/

def Q.neg (a : Q) : Q := ⟨-a.num, a.den⟩

/-- Multiplication on `Q`. -/

def Q.mul (a b : Q) : Q := mkQ (a.num * b.num) (a.den * b.den)

/-- Division on `Q` (never called with a zero divisor in the pipeline). -/

def Q.div (a b : Q) : Q :=
  mkQ (a.num * b.den * (if b.num < 0 then -1 else 1)) (a.den * b.num.natAbs)

/-- Order on `Q` by cross multiplication (denominators are positive). -/

def Q.le (a b : Q) : Bool := a.num * b.den ≤ b.num * a.den

/-- One row of the raw CSV extract: every cell is text (`dtype=str`),
a missing cell is `none`.  Field names are the canonical snake_case names
produced by the `rename` call at lines 29-46 of the script; the rename is a
pure relabelling, so the embedding uses the final names from the start. -/

structure RawRow where
  vin : Option String
  ev_type : Option String
  cafv_eligibility : Option String
  electric_range : Option String
  base_msrp : Option String
  model_year : Option String
  make : Option String
  model : Option String
  state : Option String
  county : Option String
  city : Option String
  postal_code : Option String
  legislative_district : Option String
  dol_vehicle_id : Option String
  vehicle_location : Option String
  electric_utility : Option String
  census_tract : Option String
  deriving DecidableEq, Repr

/-- One row after normalization (and, once the geo extractor has run, with
the derived `latitude` / `longitude` columns).  `electric_range` and
`base_msrp` are floats (modelled as `ℚ`), `model_year` is an integer, the
other columns stay text.  `latitude` / `longitude` are the strings captured
by the pattern, as in the script (they are never cast to float). -/

structure Row where
  vin : Option String
  ev_type : Option String
  cafv_eligibility : Option String
  electric_range : Option Q
  base_msrp : Option Q
  model_year : Int
  make : Option String
  model : Option String
  state : Option String
  county : Option String
  city : Option String
  postal_code : Option String
  legislative_district : Option String
  dol_vehicle_id : Option String
  vehicle_location : Option String
  electric_utility : Option String
  census_tract : Option String
  latitude : Option String
  longitude : Option String
  deriving DecidableEq, Repr

/-- `dt = dt[dt[State] == WA]` (line 19): keep rows whose state cell equals
the literal `WA`; a null state compares unequal and is dropped. -/

def jurisdictionFilter (t : List RawRow) : List RawRow :=
  t.filter fun r => r.state = some "WA"

/-- Numeric value of a list of decimal digit characters. -/

def digitsToNat (cs : List Char) : Nat :=
  cs.foldl (fun n c => 10 * n + (c.toNat - 48)) 0

/-- Parse the mantissa part of a float literal: digits, optionally a dot
and more digits; at least one digit overall.  Returns the value and the
unconsumed characters. -/

def parseMantissa (cs : List Char) : Option (Q × List Char) :=
  let ip := cs.takeWhile Char.isDigit
  let r1 := cs.dropWhile Char.isDigit
  match r1 with
  | '.' :: r2 =>
    let fp := r2.takeWhile Char.isDigit
    let r3 := r2.dropWhile Char.isDigit
    if ip.isEmpty && fp.isEmpty then none
    else some (Q.add (intQ (digitsToNat ip))
                 (Q.div (intQ (digitsToNat fp)) (intQ ((10 : Nat) ^ fp.length))), r3)
  | _ => if ip.isEmpty then none else some (intQ (digitsToNat ip), r1)

/-- Parse an optional exponent suffix (`e`/`E`, optional sign, digits) and
apply it to the mantissa; anything else trailing is a parse failure. -/

def parseExponent (q : Q) (cs : List Char) : Option Q :=
  match cs with
  | [] => some q
  | e :: r1 =>
    if e = 'e' ∨ e = 'E' then
      let sr : Bool × List Char :=
        match r1 with
        | '-' :: r => (false, r)
        | '+' :: r => (true, r)
        | r => (true, r)
      let ds := sr.2.takeWhile Char.isDigit
      let r3 := sr.2.dropWhile Char.isDigit
      if ds.isEmpty ∨ r3 ≠ [] then none
      else
        let p := intQ ((10 : Nat) ^ digitsToNat ds)
        some (if sr.1 then q.mul p else q.div p)
    else none

/-- Parse an unsigned float literal. -/

def parseUnsignedFloat (cs : List Char) : Option Q :=
  match parseMantissa cs with
  | none => none
  | some (q, rest) => parseExponent q rest

/-- Strip leading and trailing whitespace from a character list. -/

def trimChars (cs : List Char) : List Char :=
  ((cs.dropWhile Char.isWhitespace).reverse.dropWhile Char.isWhitespace).reverse

/-- Model of `float(s)` as invoked by `astype(float)` (lines 50-51): strip
surrounding whitespace, optional sign, decimal mantissa, optional exponent.
A string outside this grammar raises in Python; here it returns `none`. -/

def parseFloat? (s : String) : Option Q :=
  match trimChars s.toList with
  | '-' :: cs => (parseUnsignedFloat cs).map Q.neg
  | '+' :: cs => parseUnsignedFloat cs
  | cs => parseUnsignedFloat cs

/-- Model of `int(s)` as invoked by `astype(int)` (line 52): strip
surrounding whitespace, optional sign, decimal digits only. -/

def parseInt? (s : String) : Option Int :=
  match trimChars s.toList with
  | '-' :: cs =>
    if cs ≠ [] ∧ cs.all Char.isDigit then some (-(digitsToNat cs : Int)) else none
  | '+' :: cs =>
    if cs ≠ [] ∧ cs.all Char.isDigit then some ((digitsToNat cs : Int)) else none
  | cs =>
    if cs ≠ [] ∧ cs.all Char.isDigit then some ((digitsToNat cs : Int)) else none

/-- `astype(float)` on one cell: a null cell stays null (float NaN), a text
cell must parse; outer `none` signals the fatal cast error. -/

def castFloat (v : Option String) : Option (Option Q) :=
  match v with
  | none => some none
  | some s => (parseFloat? s).map some

/-- `astype(int)` on one cell: a null cell cannot be cast to int (pandas
raises), a text cell must parse as an integer. -/

def castInt (v : Option String) : Option Int :=
  match v with
  | none => none
  | some s => parseInt? s

/-- Field Normalizer on one row (lines 50-52): cast `electric_range` and
`base_msrp` to float and `model_year` to int; `none` is the fatal
`TypeError`/`ValueError` of a failed cast. -/

def normalizeRow (r : RawRow) : Option Row :=
  match castFloat r.electric_range, castFloat r.base_msrp, castInt r.model_year with
  | some er, some bm, some my =>
    some { vin := r.vin, ev_type := r.ev_type, cafv_eligibility := r.cafv_eligibility,
           electric_range := er, base_msrp := bm, model_year := my,
           make := r.make, model := r.model, state := r.state, county := r.county,
           city := r.city, postal_code := r.postal_code,
           legislative_district := r.legislative_district,
           dol_vehicle_id := r.dol_vehicle_id, vehicle_location := r.vehicle_location,
           electric_utility := r.electric_utility, census_tract := r.census_tract,
           latitude := none, longitude := none }
  | _, _, _ => none

/-- Field Normalizer on the table: every row must cast; one bad cell aborts
the whole cast (pandas `astype` is all-or-nothing on the column). -/

def normalizeTable : List RawRow → Option (List Row)
  | [] => some []
  | r :: rs =>
    match normalizeRow r, normalizeTable rs with
    | some nr, some nrs => some (nr :: nrs)
    | _, _ => none

/-- Characters admitted by the capture groups of the pattern
`POINT \(([-\d\.]+) ([-\d\.]+)\)` at line 73: minus, digit, dot. -/

def isTokChar (c : Char) : Bool :=
  c = '-' || c.isDigit || c = '.'

/-- Try to match the whole pattern at the current position: the literal
`POINT (`, a nonempty token, a space, a nonempty token, `)`.  The token
class excludes both the space and the closing bracket, so maximal munch
agrees with the regex engine and no backtracking case is lost. -/

def matchPointAt (cs : List Char) : Option (String × String) :=
  if cs.take 7 = "POINT (".toList then
    let rest := cs.drop 7
    let t1 := rest.takeWhile isTokChar
    let r2 := rest.dropWhile isTokChar
    if t1 = [] then none
    else
      match r2 with
      | ' ' :: r3 =>
        let t2 := r3.takeWhile isTokChar
        let r4 := r3.dropWhile isTokChar
        if t2 = [] then none
        else
          match r4 with
          | ')' :: _ => some (String.mk t1, String.mk t2)
          | _ => none
      | _ => none
  else none

/-- `re.search` of the pattern: try every start position left to right. -/

def searchPoint : List Char → Option (String × String)
  | [] => none
  | c :: cs =>
    match matchPointAt (c :: cs) with
    | some p => some p
    | none => searchPoint cs

/-- `replace(np.nan, 'POINT EMPTY')` (line 72): the location text with a
null cell turned into the explicit empty-point sentinel. -/

def locOrEmpty (r : Row) : String :=
  match r.vehicle_location with
  | none => "POINT EMPTY"
  | some s => s

/-- Geo Extractor on one row (lines 72-73): a null `vehicle_location` is
first replaced in place by the sentinel `POINT EMPTY`; then `str.extract`
fills `latitude` with the first captured token and `longitude` with the
second, or both with null when the pattern does not match. -/

def geoRow (r : Row) : Row :=
  match searchPoint (locOrEmpty r).toList with
  | some (t1, t2) =>
    { r with vehicle_location := some (locOrEmpty r),
             latitude := some t1, longitude := some t2 }
  | none =>
    { r with vehicle_location := some (locOrEmpty r),
             latitude := none, longitude := none }

/-- Geo Extractor on the table. -/

def geoTable (t : List Row) : List Row :=
  t.map geoRow

/-- `ev_type` replacement dictionary (lines 96-97). -/

def encode_ev_type (s : String) : String :=
  if s = "Battery Electric Vehicle (BEV)" then "1"
  else if s = "Plug-in Hybrid Electric Vehicle (PHEV)" then "2"
  else s

/-- `cafv_eligibility` replacement dictionary (lines 99-101). -/

def encode_cafv_eligibility (s : String) : String :=
  if s = "Clean Alternative Fuel Vehicle Eligible" then "1"
  else if s = "Not eligible due to low battery range" then "2"
  else if s = "Eligibility unknown as battery range has not been researched" then "3"
  else s

/-- Categorical Encoder on one row: `Series.replace` substitutes exact
matches of the dictionary keys and passes every other value (and null)
through unchanged. -/

def encodeRow (r : Row) : Row :=
  { r with ev_type := r.ev_type.map encode_ev_type,
           cafv_eligibility := r.cafv_eligibility.map encode_cafv_eligibility }

/-- Categorical Encoder on the table. -/

def encodeTable (t : List Row) : List Row :=
  t.map encodeRow

/-- `replace({0: np.nan})` on one cell (lines 82-83): the literal zero is a
semantically-missing sentinel and becomes null. -/

def replaceZero (v : Option Q) : Option Q :=
  if v = some (intQ 0) then none else v

/-- `Series.fillna` on one cell: keep a present value, else the fallback. -/

def fillWith (v m : Option Q) : Option Q :=
  match v with
  | some x => some x
  | none => m

/-- Insertion into a sorted list, for the median computation. -/

def insertSorted (x : Q) : List Q → List Q
  | [] => [x]
  | y :: ys => if x.le y then x :: y :: ys else y :: insertSorted x ys

/-- Insertion sort on rationals. -/

def sortQ (xs : List Q) : List Q := xs.foldr insertSorted []

/-- `Series.median()` over the non-null values: middle element of the
sorted list, or the average of the two middle elements for an even count;
undefined (null) on an empty list. -/

def median? (xs : List Q) : Option Q :=
  let s := sortQ xs
  if s.length = 0 then none
  else if s.length % 2 = 1 then s.get? (s.length / 2)
  else
    match s.get? (s.length / 2 - 1), s.get? (s.length / 2) with
    | some a, some b => some ((a.add b).div (intQ 2))
    | _, _ => none

/-- Group key of `groupby(['make', 'model'])`: pandas (default
`dropna=True`) assigns no group to a row whose key holds a null, which is
modelled by `none`. -/

def mmKey (r : Row) : Option (String × String) :=
  match r.make, r.model with
  | some a, some b => some (a, b)
  | _, _ => none

/-- Group key of `groupby('make')`: a null make means no group. -/

def mKey (r : Row) : Option String := r.make

/-- Per-row result of
`groupby(key)[col].transform(lambda x: x.fillna(x.median()))` computed
against the table `t` the transform runs on: a row outside every group
(null key) receives null; a grouped row keeps its value or receives the
median of the non-null values of its group. -/

def groupFillFun {K : Type} [DecidableEq K] (key : Row → Option K)
    (get : Row → Option Q) (set : Row → Option Q → Row) (t : List Row) (r : Row) : Row :=
  match key r with
  | none => set r none
  | some k =>
    set r (fillWith (get r)
      (median? ((t.filter fun r2 => key r2 = some k).filterMap get)))

/-- `dt[col] = dt.groupby(key)[col].transform(lambda x: x.fillna(x.median()))`. -/

def groupFill {K : Type} [DecidableEq K] (key : Row → Option K)
    (get : Row → Option Q) (set : Row → Option Q → Row) (t : List Row) : List Row :=
  t.map (groupFillFun key get set t)

/-- Per-row result of `dt[col].fillna(dt[col].median())` against table `t`. -/

def globalFillFun (get : Row → Option Q) (set : Row → Option Q → Row)
    (t : List Row) (r : Row) : Row :=
  set r (fillWith (get r) (median? (t.filterMap get)))

/-- `dt[col] = dt[col].fillna(dt[col].median())` (line 89). -/

def globalFill (get : Row → Option Q) (set : Row → Option Q → Row)
    (t : List Row) : List Row :=
  t.map (globalFillFun get set t)

/-- Column accessor for `base_msrp`. -/

def getBM (r : Row) : Option Q := r.base_msrp

/-- Column writer for `base_msrp`. -/

def setBM (r : Row) (v : Option Q) : Row := { r with base_msrp := v }

/-- Column accessor for `electric_range`. -/

def getER (r : Row) : Option Q := r.electric_range

/-- Column writer for `electric_range`. -/

def setER (r : Row) (v : Option Q) : Row := { r with electric_range := v }

/-- Body of the `for col in cols_list` loop (lines 86-89): the (make,
model) group fill, then the make group fill, then the global fill, each
reading the column as left by the previous statement. -/

def fillCol (get : Row → Option Q) (set : Row → Option Q → Row)
    (t : List Row) : List Row :=
  globalFill get set (groupFill mKey get set (groupFill mmKey get set t))

/-- `fill_missing(dt, ['base_msrp', 'electric_range'])` (line 92). -/

def fill_missing (t : List Row) : List Row :=
  fillCol getER setER (fillCol getBM setBM t)

/-- Zero-to-null replacement on both treated columns (lines 82-83). -/

def zeroToNullRow (r : Row) : Row :=
  { r with electric_range := replaceZero r.electric_range,
           base_msrp := replaceZero r.base_msrp }

/-- The whole Imputer: zero replacement, then the cascading median fills. -/

def imputeTable (t : List Row) : List Row :=
  fill_missing (t.map zeroToNullRow)

/-- The transformation chain applied to the normalized table: geo
extraction (lines 72-73), imputation (lines 82-92), categorical encoding
(lines 96-101). -/

def transform (t : List Row) : List Row :=
  encodeTable (imputeTable (geoTable t))

/-- `drop_duplicates()` keeping the first occurrence; pandas considers two
rows equal when every column agrees, null matching null. -/

def dedupFirstAux {α : Type} [DecidableEq α] (seen : List α) : List α → List α
  | [] => []
  | x :: xs =>
    if x ∈ seen then dedupFirstAux seen xs
    else x :: dedupFirstAux (x :: seen) xs

/-- `drop_duplicates()` on a list of key tuples. -/

def dedupFirst {α : Type} [DecidableEq α] (l : List α) : List α :=
  dedupFirstAux [] l

/-- `reset_index(drop=True)` followed by `index + n`: pair each element
with a sequential number starting at `n`. -/

def numberFrom {α : Type} (n : Nat) : List α → List (α × Nat)
  | [] => []
  | x :: xs => (x, n) :: numberFrom (n + 1) xs

/-- One dimension table: the distinct key combinations in first-occurrence
order, each paired with its 1-based surrogate key. -/

def dimTable {α : Type} [DecidableEq α] (keys : List α) : List (α × Nat) :=
  numberFrom 1 (dedupFirst keys)

/-- Surrogate keys of all dimension rows whose key columns equal `k`
(pandas `merge` matches null keys to null keys). -/

def matchIds {K : Type} [DecidableEq K] (d : List (K × Nat)) (k : K) : List Nat :=
  (d.filter fun p => p.1 = k).map Prod.snd

/-- Concatenation of the images, for the fan-out of a join. -/

def flatMapL {α β : Type} (f : α → List β) : List α → List β
  | [] => []
  | x :: xs => f x ++ flatMapL f xs

/-- A record during dimensionalization: the transformed row plus the
foreign keys accumulated by the merges so far (`none` is a null foreign
key from an unmatched left row). -/

abbrev Recd := Row × List (Option Nat)

/-- `dt = dt.merge(Dim, on=key_columns, how='left')`: every left record
pairs with each dimension row whose key columns all agree (null matching
null); a record with no match survives once with a null foreign key, a
record with several matches fans out. -/

def mergeStep {K : Type} [DecidableEq K] (key : Row → K) (d : List (K × Nat))
    (t : List Recd) : List Recd :=
  flatMapL (fun p =>
    match matchIds d (key p.1) with
    | [] => [(p.1, p.2 ++ [none])]
    | ms => ms.map fun i => (p.1, p.2 ++ [some i])) t

/-- The defining-column tuple of `Dim_Vehicle_model` (line 108). -/

structure VMKey where
  make : Option String
  model : Option String
  model_year : Int
  ev_type : Option String
  electric_range : Option Q
  base_msrp : Option Q
  deriving DecidableEq, Repr

/-- The defining-column tuple of `Dim_Location` (line 113). -/

structure LocKey where
  state : Option String
  county : Option String
  city : Option String
  postal_code : Option String
  latitude : Option String
  longitude : Option String
  deriving DecidableEq, Repr

/-- Defining columns of `Dim_Vehicle_model` (line 108). -/

def vmKey (r : Row) : VMKey :=
  ⟨r.make, r.model, r.model_year, r.ev_type, r.electric_range, r.base_msrp⟩

/-- Defining columns of `Dim_Location` (line 113). -/

def locKey (r : Row) : LocKey :=
  ⟨r.state, r.county, r.city, r.postal_code, r.latitude, r.longitude⟩

/-- Defining column of `Dim_Policy_Eligibility` (line 118). -/

def polKey (r : Row) : Option String := r.cafv_eligibility

/-- Defining columns of `Dim_District` (line 123). -/

def distKey (r : Row) : Option String × Option String :=
  (r.legislative_district, r.census_tract)

/-- Defining column of `Dim_Utility` (line 128). -/

def utilKey (r : Row) : Option String := r.electric_utility

/-- Build a dimension from the current record set: project the defining
columns, drop duplicates, assign `index + 1`. -/

def dimOf {K : Type} [DecidableEq K] (key : Row → K) (t : List Recd) : List (K × Nat) :=
  dimTable (t.map fun p => key p.1)

/-- The record set entering the Dimensionalizer: no foreign keys yet. -/

def recs0 (t : List Row) : List Recd := t.map fun r => (r, [])

/-- `Dim_Vehicle_model` (lines 108-109), built from the record set before
any merge. -/

def Dim_Vehicle_model (t : List Row) := dimOf vmKey (recs0 t)

/-- The record set after the `Dim_Vehicle_model` merge (line 110). -/

def recs1 (t : List Row) : List Recd := mergeStep vmKey (Dim_Vehicle_model t) (recs0 t)

/-- `Dim_Location` (lines 113-114), built after the first merge. -/

def Dim_Location (t : List Row) := dimOf locKey (recs1 t)

/-- The record set after the `Dim_Location` merge (line 115). -/

def recs2 (t : List Row) : List Recd := mergeStep locKey (Dim_Location t) (recs1 t)

/-- `Dim_Policy_Eligibility` (lines 118-119). -/

def Dim_Policy_Eligibility (t : List Row) := dimOf polKey (recs2 t)

/-- The record set after the `Dim_Policy_Eligibility` merge (line 120). -/

def recs3 (t : List Row) : List Recd := mergeStep polKey (Dim_Policy_Eligibility t) (recs2 t)

/-- `Dim_District` (lines 123-124). -/

def Dim_District (t : List Row) := dimOf distKey (recs3 t)

/-- The record set after the `Dim_District` merge (line 125). -/

def recs4 (t : List Row) : List Recd := mergeStep distKey (Dim_District t) (recs3 t)

/-- `Dim_Utility` (lines 128-129). -/

def Dim_Utility (t : List Row) := dimOf utilKey (recs4 t)

/-- The record set after the `Dim_Utility` merge (line 130). -/

def recs5 (t : List Row) : List Recd := mergeStep utilKey (Dim_Utility t) (recs4 t)

/-- One row of `Fact_EV` (lines 133-134): the two natural keys, the five
foreign keys, and the 1-based fact surrogate key `ev_id`. -/

structure FactRow where
  vin : Option String
  dol_vehicle_id : Option String
  vehicle_model_id : Option Nat
  location_id : Option Nat
  policy_id : Option Nat
  district_id : Option Nat
  utility_id : Option Nat
  ev_id : Nat
  deriving DecidableEq, Repr

/-- `Fact_EV` (lines 133-134): project the seven columns from the fully
merged record set and add `ev_id = index + 1`. -/

def Fact_EV (t : List Row) : List FactRow :=
  (numberFrom 1 (recs5 t)).map fun p =>
    { vin := p.1.1.vin,
      dol_vehicle_id := p.1.1.dol_vehicle_id,
      vehicle_model_id := p.1.2.getD 0 none,
      location_id := p.1.2.getD 1 none,
      policy_id := p.1.2.getD 2 none,
      district_id := p.1.2.getD 3 none,
      utility_id := p.1.2.getD 4 none,
      ev_id := p.2 }

/-- The six tables handed to the load stage. -/

structure Output where
  dim_vehicle_model : List (VMKey × Nat)
  dim_location : List (LocKey × Nat)
  dim_policy_eligibility : List (Option String × Nat)
  dim_district : List ((Option String × Option String) × Nat)
  dim_utility : List (Option String × Nat)
  fact_ev : List FactRow
  deriving DecidableEq, Repr

/-- The whole pipeline from the raw extract to the six output tables:
jurisdiction filter, normalizer (which can fail fatally), the
transformation chain, dimensionalization, fact assembly.  A cast failure
yields `none`: nothing is loaded. -/

def runPipeline (traw : List RawRow) : Option Output :=
  match normalizeTable (jurisdictionFilter traw) with
  | none => none
  | some rows =>
    let t := transform rows
    some { dim_vehicle_model := Dim_Vehicle_model t,
           dim_location := Dim_Location t,
           dim_policy_eligibility := Dim_Policy_Eligibility t,
           dim_district := Dim_District t,
           dim_utility := Dim_Utility t,
           fact_ev := Fact_EV t }

/-- An all-null raw row, the base point for concrete instances. -/

def blankRaw : RawRow :=
  { vin := none, ev_type := none, cafv_eligibility := none, electric_range := none,
    base_msrp := none, model_year := none, make := none, model := none, state := none,
    county := none, city := none, postal_code := none, legislative_district := none,
    dol_vehicle_id := none, vehicle_location := none, electric_utility := none,
    census_tract := none }

/-- An all-null normalized row (model year 0), the base point for concrete
instances at the `Row` level. -/

def blankRow : Row :=
  { vin := none, ev_type := none, cafv_eligibility := none, electric_range := none,
    base_msrp := none, model_year := 0, make := none, model := none, state := none,
    county := none, city := none, postal_code := none, legislative_district := none,
    dol_vehicle_id := none, vehicle_location := none, electric_utility := none,
    census_tract := none, latitude := none, longitude := none }

/-- First scenario row of the spec (section 8): a BEV TESLA MODEL 3 with a
zero price, a 150 range and a parsable point location. -/

def c7row1 : RawRow :=
  { blankRaw with state := some "WA",
                  ev_type := some "Battery Electric Vehicle (BEV)",
                  base_msrp := some "0", electric_range := some "150",
                  make := some "TESLA", model := some "MODEL 3",
                  model_year := some "2020",
                  vehicle_location := some "POINT (-122.3 47.6)" }

/-- Second scenario row: same TESLA MODEL 3 2020 with a 45000 price. -/

def c7row2 : RawRow :=
  { blankRaw with state := some "WA",
                  ev_type := some "Plug-in Hybrid Electric Vehicle (PHEV)",
                  base_msrp := some "45000", electric_range := some "200",
                  make := some "TESLA", model := some "MODEL 3",
                  model_year := some "2020" }

def nullMakeRow : Row :=
  { blankRow with model := some "MODEL 3", electric_range := some (intQ 150) }

def firstIdx {α : Type} [DecidableEq α] : List α → α → Nat
  | [], _ => 0
  | x :: xs, a => if x = a then 0 else firstIdx xs a + 1

def DimOK {K : Type} [DecidableEq K] (d : List (K × Nat)) (keys : List K) : Prop :=
  (d.map Prod.fst).Nodup ∧
  (∀ k, k ∈ d.map Prod.fst ↔ k ∈ keys) ∧
  List.Pairwise (fun a b => firstIdx keys a < firstIdx keys b) (d.map Prod.fst) ∧
  d.map Prod.snd = List.range' 1 d.length

def groupedRow : Row :=
  { blankRow with make := some "TESLA", model := some "MODEL 3",
                  electric_range := some (intQ 150), base_msrp := some (intQ 45000) }

/-- Witness for `imputer_completeness_amended` at a concrete
one-row table. -/

def sameExceptNumeric (a b : Row) : Prop :=
  b.vin = a.vin ∧ b.ev_type = a.ev_type ∧ b.cafv_eligibility = a.cafv_eligibility ∧
  b.model_year = a.model_year ∧ b.make = a.make ∧ b.model = a.model ∧
  b.state = a.state ∧ b.county = a.county ∧ b.city = a.city ∧
  b.postal_code = a.postal_code ∧ b.legislative_district = a.legislative_district ∧
  b.dol_vehicle_id = a.dol_vehicle_id ∧ b.vehicle_location = a.vehicle_location ∧
  b.electric_utility = a.electric_utility ∧ b.census_tract = a.census_tract ∧
  b.latitude = a.latitude ∧ b.longitude = a.longitude

def blankRecd : Recd := (blankRow, [some 1, some 1, some 1, some 1, some 1])

/-- Witness for `join_completeness` at a concrete one-row table. -/

def scenarioRows : List Row :=
  (normalizeTable (jurisdictionFilter [c7row1, c7row2])).getD []

/-- Witness for `row_count_preservation` at the two scenario rows. -/

def unknownRow : Row :=
  { blankRow with ev_type := some "Fuel Cell Electric Vehicle (FCEV)",
                  cafv_eligibility := some "Unknown text" }

/-- Witness for `encoder_exact_substitution` at a concrete row with
unmapped categorical values, passed through unchanged. -/

def locRow : Row :=
  { blankRow with vehicle_location := some "POINT (-122.3 47.6)" }

/-- Witness for `geo_extractor_behavior` at a concrete matching location,
extracting the two tokens. -/

def badRaw : RawRow :=
  { blankRaw with state := some "WA", electric_range := some "abc" }

/-- Witness for `normalizer_fatal_on_non_numeric` at a concrete malformed
row. -/

def sameExceptGeo (a b : Row) : Prop :=
  b.vin = a.vin ∧ b.ev_type = a.ev_type ∧ b.cafv_eligibility = a.cafv_eligibility ∧
  b.electric_range = a.electric_range ∧ b.base_msrp = a.base_msrp ∧
  b.model_year = a.model_year ∧ b.make = a.make ∧ b.model = a.model ∧
  b.state = a.state ∧ b.county = a.county ∧ b.city = a.city ∧
  b.postal_code = a.postal_code ∧ b.legislative_district = a.legislative_district ∧
  b.dol_vehicle_id = a.dol_vehicle_id ∧ b.electric_utility = a.electric_utility ∧
  b.census_tract = a.census_tract

/-- All columns of `b` other than `ev_type` and `cafv_eligibility` agree
with those of `a`: the frame of the Categorical Encoder. -/

def sameExceptCategorical (a b : Row) : Prop :=
  b.vin = a.vin ∧ b.electric_range = a.electric_range ∧ b.base_msrp = a.base_msrp ∧
  b.model_year = a.model_year ∧ b.make = a.make ∧ b.model = a.model ∧
  b.state = a.state ∧ b.county = a.county ∧ b.city = a.city ∧
  b.postal_code = a.postal_code ∧ b.legislative_district = a.legislative_district ∧
  b.dol_vehicle_id = a.dol_vehicle_id ∧ b.vehicle_location = a.vehicle_location ∧
  b.electric_utility = a.electric_utility ∧ b.census_tract = a.census_tract ∧
  b.latitude = a.latitude ∧ b.longitude = a.longitude

def bevRow : Row :=
  { blankRow with ev_type := some "Battery Electric Vehicle (BEV)" }

/-- C9 counterexample: the claim says each stage constructs new columns
rather than rewriting consumed ones; in fact the Encoder writes the code
into the consumed `ev_type` column itself, and the Geo Extractor rewrites
the consumed `vehicle_location` column (null becomes the sentinel), so the
upstream table handed downstream is mutated. -/

example :
  (normalizeTable (jurisdictionFilter [c7row1, c7row2])).map (fun rows =>
    (transform rows).map fun r => (r.base_msrp, r.electric_range))
  = some [(some (intQ 45000), some (intQ 150)),
          (some (intQ 45000), some (intQ 200))] := by decide

example :
  (normalizeTable (jurisdictionFilter [c7row1, c7row2])).map (fun rows =>
    (transform rows).map fun r => (r.ev_type, r.latitude, r.longitude))
  = some [(some "1", some "-122.3", some "47.6"),
          (some "2", none, none)] := by decide

example :
  recs5 [blankRow] = [(blankRow, [some 1, some 1, some 1, some 1, some 1])] := by decide

/-- A row with a null `make`, a present `model` and a present, non-zero
`electric_range`: `groupby(['make', 'model'])` assigns it no group, so the
transform at line 87 writes null over its value. -/

example : (imputeTable [nullMakeRow]).map (fun r => r.electric_range) = [none] := by decide

/-- Index of the first occurrence of `a` in `l` (length of `l` when `a` is
absent); used to state first-occurrence order. -/

theorem firstIdx_cons_self {α : Type} [DecidableEq α] (x : α) (xs : List α) :
    firstIdx (x :: xs) x = 0 := by
  simp [firstIdx]

theorem firstIdx_cons_ne {α : Type} [DecidableEq α] (x a : α) (xs : List α) (h : x ≠ a) :
    firstIdx (x :: xs) a = firstIdx xs a + 1 := by
  simp [firstIdx, h]

theorem numberFrom_map_fst {α : Type} (n : Nat) (l : List α) :
    (numberFrom n l).map Prod.fst = l := by
  induction l generalizing n with
  | nil => rfl
  | cons x xs ih => simp [numberFrom, ih]

theorem numberFrom_map_snd {α : Type} (n : Nat) (l : List α) :
    (numberFrom n l).map Prod.snd = List.range' n l.length := by
  induction l generalizing n with
  | nil => rfl
  | cons x xs ih => simp [numberFrom, ih, List.range'_succ]

theorem numberFrom_length {α : Type} (n : Nat) (l : List α) :
    (numberFrom n l).length = l.length := by
  induction l generalizing n with
  | nil => rfl
  | cons x xs ih => simp [numberFrom, ih]

theorem mem_dedupFirstAux {α : Type} [DecidableEq α] (l : List α) (seen : List α) (a : α) :
    a ∈ dedupFirstAux seen l ↔ a ∈ l ∧ a ∉ seen := by
  induction l generalizing seen with
  | nil => simp [dedupFirstAux]
  | cons x xs ih =>
    by_cases hx : x ∈ seen
    · rw [dedupFirstAux, if_pos hx, ih]
      constructor
      · rintro ⟨h1, h2⟩; exact ⟨List.mem_cons_of_mem x h1, h2⟩
      · rintro ⟨h1, h2⟩
        rcases List.mem_cons.mp h1 with rfl | h1
        · exact absurd hx h2
        · exact ⟨h1, h2⟩
    · rw [dedupFirstAux, if_neg hx]
      constructor
      · intro h1
        rcases List.mem_cons.mp h1 with rfl | h1
        · exact ⟨List.mem_cons_self a xs, hx⟩
        · rw [ih] at h1
          refine ⟨List.mem_cons_of_mem x h1.1, fun hs => h1.2 (List.mem_cons_of_mem x hs)⟩
      · rintro ⟨h1, h2⟩
        rcases List.mem_cons.mp h1 with rfl | h1
        · exact List.mem_cons_self a _
        · by_cases hax : a = x
          · subst hax; exact List.mem_cons_self a _
          · refine List.mem_cons_of_mem x ?_
            rw [ih]
            refine ⟨h1, fun hs => ?_⟩
            rcases List.mem_cons.mp hs with h3 | h3
            · exact hax h3
            · exact h2 h3

theorem nodup_dedupFirstAux {α : Type} [DecidableEq α] (l : List α) (seen : List α) :
    (dedupFirstAux seen l).Nodup := by
  induction l generalizing seen with
  | nil => simp [dedupFirstAux]
  | cons x xs ih =>
    by_cases hx : x ∈ seen
    · rw [dedupFirstAux, if_pos hx]; exact ih seen
    · rw [dedupFirstAux, if_neg hx]
      refine List.nodup_cons.mpr ⟨fun hmem => ?_, ih (x :: seen)⟩
      rw [mem_dedupFirstAux] at hmem
      exact hmem.2 (List.mem_cons_self x seen)

theorem pairwise_imp_of_mem {α : Type} {R S : α → α → Prop} :
    ∀ {l : List α}, (∀ a b, a ∈ l → b ∈ l → R a b → S a b) → l.Pairwise R → l.Pairwise S := by
  intro l
  induction l with
  | nil => intro _ _; exact List.Pairwise.nil
  | cons x xs ih =>
    intro h hp
    rw [List.pairwise_cons] at hp ⊢
    refine ⟨fun b hb => h x b (List.mem_cons_self x xs) (List.mem_cons_of_mem x hb) (hp.1 b hb), ?_⟩
    exact ih (fun a b ha hb => h a b (List.mem_cons_of_mem x ha) (List.mem_cons_of_mem x hb)) hp.2

theorem pairwise_firstIdx_dedupFirstAux {α : Type} [DecidableEq α] (l : List α) (seen : List α) :
    List.Pairwise (fun a b => firstIdx l a < firstIdx l b) (dedupFirstAux seen l) := by
  induction l generalizing seen with
  | nil => simp [dedupFirstAux]
  | cons x xs ih =>
    by_cases hx : x ∈ seen
    · rw [dedupFirstAux, if_pos hx]
      refine pairwise_imp_of_mem (fun a b ha hb hab => ?_) (ih seen)
      rw [mem_dedupFirstAux] at ha hb
      have hxa : x ≠ a := fun h => ha.2 (h ▸ hx)
      have hxb : x ≠ b := fun h => hb.2 (h ▸ hx)
      rw [firstIdx_cons_ne x a xs hxa, firstIdx_cons_ne x b xs hxb]
      omega
    · rw [dedupFirstAux, if_neg hx]
      rw [List.pairwise_cons]
      constructor
      · intro b hb
        rw [mem_dedupFirstAux] at hb
        have hxb : x ≠ b := fun h => hb.2 (h ▸ List.mem_cons_self x seen)
        rw [firstIdx_cons_self, firstIdx_cons_ne x b xs hxb]
        omega
      · refine pairwise_imp_of_mem (fun a b ha hb hab => ?_) (ih (x :: seen))
        rw [mem_dedupFirstAux] at ha hb
        have hxa : x ≠ a := fun h => ha.2 (h ▸ List.mem_cons_self x seen)
        have hxb : x ≠ b := fun h => hb.2 (h ▸ List.mem_cons_self x seen)
        rw [firstIdx_cons_ne x a xs hxa, firstIdx_cons_ne x b xs hxb]
        omega

theorem mem_dedupFirst {α : Type} [DecidableEq α] (l : List α) (a : α) :
    a ∈ dedupFirst l ↔ a ∈ l := by
  rw [dedupFirst, mem_dedupFirstAux]
  simp

theorem nodup_dedupFirst {α : Type} [DecidableEq α] (l : List α) :
    (dedupFirst l).Nodup :=
  nodup_dedupFirstAux l []

theorem length_insertSorted (x : Q) (l : List Q) :
    (insertSorted x l).length = l.length + 1 := by
  induction l with
  | nil => rfl
  | cons y ys ih => by_cases h : x.le y <;> simp [insertSorted, h, ih]

theorem length_sortQ (l : List Q) : (sortQ l).length = l.length := by
  induction l with
  | nil => rfl
  | cons y ys ih =>
    show (insertSorted y (sortQ ys)).length = ys.length + 1
    rw [length_insertSorted, ih]

theorem median?_isSome (xs : List Q) (h : xs ≠ []) : ∃ m, median? xs = some m := by
  have hpos : 0 < (sortQ xs).length := by
    rw [length_sortQ]; exact List.length_pos.mpr h
  unfold median?
  by_cases h1 : (sortQ xs).length = 0
  · omega
  · rw [if_neg h1]
    by_cases h2 : (sortQ xs).length % 2 = 1
    · rw [if_pos h2]
      cases hg : (sortQ xs).get? ((sortQ xs).length / 2) with
      | none => rw [List.get?_eq_none] at hg; omega
      | some a => exact ⟨a, rfl⟩
    · rw [if_neg h2]
      cases hg1 : (sortQ xs).get? ((sortQ xs).length / 2 - 1) with
      | none => rw [List.get?_eq_none] at hg1; omega
      | some a =>
        cases hg2 : (sortQ xs).get? ((sortQ xs).length / 2) with
        | none => rw [List.get?_eq_none] at hg2; omega
        | some b => exact ⟨_, rfl⟩

theorem matchIds_of_nodup_mem {K : Type} [DecidableEq K] (d : List (K × Nat)) (k : K)
    (hnd : (d.map Prod.fst).Nodup) (hk : k ∈ d.map Prod.fst) :
    ∃ i, matchIds d k = [i] := by
  induction d with
  | nil => simp at hk
  | cons p ps ih =>
    rw [List.map_cons, List.nodup_cons] at hnd
    by_cases hpk : p.1 = k
    · have hnot : k ∉ ps.map Prod.fst := hpk ▸ hnd.1
      have hfil : ps.filter (fun q => decide (q.1 = k)) = [] := by
        rw [List.filter_eq_nil_iff]
        intro q hq
        simp only [decide_eq_true_eq]
        intro hqk
        exact hnot (hqk ▸ List.mem_map_of_mem Prod.fst hq)
      refine ⟨p.2, ?_⟩
      simp [matchIds, List.filter_cons, hpk, hfil]
    · have hk2 : k ∈ ps.map Prod.fst := by
        rw [List.map_cons, List.mem_cons] at hk
        rcases hk with h | h
        · exact absurd h.symm hpk
        · exact h
      obtain ⟨i, hi⟩ := ih hnd.2 hk2
      refine ⟨i, ?_⟩
      rw [matchIds] at hi ⊢
      rw [List.filter_cons, decide_eq_false hpk]
      simpa using hi

theorem matchIds_dimTable {K : Type} [DecidableEq K] (keys : List K) (k : K)
    (hk : k ∈ keys) : ∃ i, matchIds (dimTable keys) k = [i] := by
  apply matchIds_of_nodup_mem
  · rw [dimTable, numberFrom_map_fst]
    exact nodup_dedupFirst keys
  · rw [dimTable, numberFrom_map_fst, mem_dedupFirst]
    exact hk

theorem matchIds_dimOf {K : Type} [DecidableEq K] (key : Row → K) (t : List Recd)
    (p : Recd) (hp : p ∈ t) : ∃ i, matchIds (dimOf key t) (key p.1) = [i] :=
  matchIds_dimTable _ _ (List.mem_map_of_mem (fun q => key q.1) hp)

theorem matchIds_of_fst_mem {K : Type} [DecidableEq K] (key : Row → K) (s : List Recd)
    (r : Row) (hr : r ∈ s.map Prod.fst) : ∃ i, matchIds (dimOf key s) (key r) = [i] := by
  obtain ⟨p, hp, hpr⟩ := List.mem_map.mp hr
  obtain ⟨i, hi⟩ := matchIds_dimOf key s p hp
  exact ⟨i, by rwa [hpr] at hi⟩

theorem mergeStep_length {K : Type} [DecidableEq K] (key : Row → K) (d : List (K × Nat))
    (t : List Recd) (h : ∀ p ∈ t, ∃ i, matchIds d (key p.1) = [i]) :
    (mergeStep key d t).length = t.length := by
  induction t with
  | nil => rfl
  | cons p ps ih =>
    obtain ⟨i, hi⟩ := h p (List.mem_cons_self p ps)
    rw [mergeStep, flatMapL, List.length_append]
    rw [hi]
    have htail := ih (fun q hq => h q (List.mem_cons_of_mem p hq))
    rw [mergeStep] at htail
    rw [htail]
    simp
    omega

theorem mergeStep_map_fst {K : Type} [DecidableEq K] (key : Row → K) (d : List (K × Nat))
    (t : List Recd) (h : ∀ p ∈ t, ∃ i, matchIds d (key p.1) = [i]) :
    (mergeStep key d t).map Prod.fst = t.map Prod.fst := by
  induction t with
  | nil => rfl
  | cons p ps ih =>
    obtain ⟨i, hi⟩ := h p (List.mem_cons_self p ps)
    rw [mergeStep, flatMapL, List.map_append]
    rw [hi]
    have htail := ih (fun q hq => h q (List.mem_cons_of_mem p hq))
    rw [mergeStep] at htail
    rw [htail]
    simp

theorem mergeStep_mem {K : Type} [DecidableEq K] (key : Row → K) (d : List (K × Nat))
    (t : List Recd) (h : ∀ p ∈ t, ∃ i, matchIds d (key p.1) = [i]) :
    ∀ q ∈ mergeStep key d t, ∃ p ∈ t, ∃ i, matchIds d (key p.1) = [i] ∧ q = (p.1, p.2 ++ [some i]) := by
  induction t with
  | nil => intro q hq; rw [mergeStep, flatMapL] at hq; simp at hq
  | cons p ps ih =>
    intro q hq
    obtain ⟨i, hi⟩ := h p (List.mem_cons_self p ps)
    rw [mergeStep, flatMapL] at hq
    rw [hi] at hq
    rcases List.mem_append.mp hq with h1 | h1
    · simp only [List.map_cons, List.map_nil, List.mem_singleton] at h1
      exact ⟨p, List.mem_cons_self p ps, i, hi, h1⟩
    · obtain ⟨p2, hp2, i2, hi2, rfl⟩ :=
        ih (fun q2 hq2 => h q2 (List.mem_cons_of_mem p hq2)) q h1
      exact ⟨p2, List.mem_cons_of_mem p hp2, i2, hi2, rfl⟩

theorem recs0_map_fst (t : List Row) : (recs0 t).map Prod.fst = t := by
  rw [recs0, List.map_map]
  exact List.map_id t

theorem merge_self_hyp {K : Type} [DecidableEq K] (key : Row → K) (s : List Recd) :
    ∀ p ∈ s, ∃ i, matchIds (dimOf key s) (key p.1) = [i] :=
  fun p hp => matchIds_dimOf key s p hp

theorem recs1_map_fst (t : List Row) : (recs1 t).map Prod.fst = t := by
  unfold recs1 Dim_Vehicle_model
  rw [mergeStep_map_fst _ _ _ (merge_self_hyp vmKey (recs0 t)), recs0_map_fst]

theorem recs2_map_fst (t : List Row) : (recs2 t).map Prod.fst = t := by
  unfold recs2 Dim_Location
  rw [mergeStep_map_fst _ _ _ (merge_self_hyp locKey (recs1 t)), recs1_map_fst]

theorem recs3_map_fst (t : List Row) : (recs3 t).map Prod.fst = t := by
  unfold recs3 Dim_Policy_Eligibility
  rw [mergeStep_map_fst _ _ _ (merge_self_hyp polKey (recs2 t)), recs2_map_fst]

theorem recs4_map_fst (t : List Row) : (recs4 t).map Prod.fst = t := by
  unfold recs4 Dim_District
  rw [mergeStep_map_fst _ _ _ (merge_self_hyp distKey (recs3 t)), recs3_map_fst]

theorem recs5_map_fst (t : List Row) : (recs5 t).map Prod.fst = t := by
  unfold recs5 Dim_Utility
  rw [mergeStep_map_fst _ _ _ (merge_self_hyp utilKey (recs4 t)), recs4_map_fst]

theorem recs5_length (t : List Row) : (recs5 t).length = t.length := by
  have h := congrArg List.length (recs5_map_fst t)
  simpa using h

theorem recs1_length_step (t : List Row) : (recs1 t).length = (recs0 t).length := by
  unfold recs1 Dim_Vehicle_model
  exact mergeStep_length _ _ _ (merge_self_hyp vmKey (recs0 t))

theorem recs2_length_step (t : List Row) : (recs2 t).length = (recs1 t).length := by
  unfold recs2 Dim_Location
  exact mergeStep_length _ _ _ (merge_self_hyp locKey (recs1 t))

theorem recs3_length_step (t : List Row) : (recs3 t).length = (recs2 t).length := by
  unfold recs3 Dim_Policy_Eligibility
  exact mergeStep_length _ _ _ (merge_self_hyp polKey (recs2 t))

theorem recs4_length_step (t : List Row) : (recs4 t).length = (recs3 t).length := by
  unfold recs4 Dim_District
  exact mergeStep_length _ _ _ (merge_self_hyp distKey (recs3 t))

theorem recs5_length_step (t : List Row) : (recs5 t).length = (recs4 t).length := by
  unfold recs5 Dim_Utility
  exact mergeStep_length _ _ _ (merge_self_hyp utilKey (recs4 t))

theorem mergeStep_ids {K : Type} [DecidableEq K] (key : Row → K) (d : List (K × Nat))
    (t : List Recd) (n : Nat)
    (h : ∀ p ∈ t, ∃ i, matchIds d (key p.1) = [i])
    (hn : ∀ p ∈ t, p.2.length = n ∧ ∀ o ∈ p.2, o ≠ none) :
    ∀ q ∈ mergeStep key d t, q.2.length = n + 1 ∧ ∀ o ∈ q.2, o ≠ none := by
  intro q hq
  obtain ⟨p, hp, i, hi, rfl⟩ := mergeStep_mem key d t h q hq
  obtain ⟨hlen, hall⟩ := hn p hp
  refine ⟨by simp [hlen], ?_⟩
  intro o ho
  rcases List.mem_append.mp ho with h1 | h1
  · exact hall o h1
  · rw [List.mem_singleton] at h1
    subst h1
    simp

theorem recs0_ids (t : List Row) :
    ∀ p ∈ recs0 t, p.2.length = 0 ∧ ∀ o ∈ p.2, o ≠ none := by
  intro p hp
  obtain ⟨r, hr, rfl⟩ := List.mem_map.mp hp
  simp

theorem recs5_ids (t : List Row) :
    ∀ q ∈ recs5 t, q.2.length = 5 ∧ ∀ o ∈ q.2, o ≠ none := by
  have h1 := mergeStep_ids vmKey (dimOf vmKey (recs0 t)) (recs0 t) 0
    (merge_self_hyp vmKey (recs0 t)) (recs0_ids t)
  have h2 := mergeStep_ids locKey (dimOf locKey (recs1 t)) (recs1 t) 1
    (merge_self_hyp locKey (recs1 t)) h1
  have h3 := mergeStep_ids polKey (dimOf polKey (recs2 t)) (recs2 t) 2
    (merge_self_hyp polKey (recs2 t)) h2
  have h4 := mergeStep_ids distKey (dimOf distKey (recs3 t)) (recs3 t) 3
    (merge_self_hyp distKey (recs3 t)) h3
  have h5 := mergeStep_ids utilKey (dimOf utilKey (recs4 t)) (recs4 t) 4
    (merge_self_hyp utilKey (recs4 t)) h4
  exact fun q hq => h5 q hq

/-- The three structural facts the spec demands of a dimension table built
over a key list: distinct defining-column combinations, the combinations
being exactly those of the source, surrogate keys dense from 1 assigned in
first-occurrence order. -/

theorem dimTable_ok {K : Type} [DecidableEq K] (keys : List K) :
    DimOK (dimTable keys) keys := by
  refine ⟨?_, ?_, ?_, ?_⟩
  · rw [dimTable, numberFrom_map_fst]
    exact nodup_dedupFirst keys
  · intro k
    rw [dimTable, numberFrom_map_fst, mem_dedupFirst]
  · rw [dimTable, numberFrom_map_fst]
    exact pairwise_firstIdx_dedupFirstAux keys []
  · rw [dimTable, numberFrom_map_snd, numberFrom_length]

theorem Fact_EV_ev_ids (t : List Row) :
    (Fact_EV t).map FactRow.ev_id = List.range' 1 t.length := by
  rw [Fact_EV, List.map_map]
  show (numberFrom 1 (recs5 t)).map Prod.snd = List.range' 1 t.length
  rw [numberFrom_map_snd, recs5_length]

theorem Fact_EV_nodup (t : List Row) : (Fact_EV t).Nodup := by
  have h : ((Fact_EV t).map FactRow.ev_id).Nodup := by
    rw [Fact_EV_ev_ids]
    exact List.nodup_range' 1 t.length
  exact h.of_map FactRow.ev_id

theorem Fact_EV_length (t : List Row) : (Fact_EV t).length = t.length := by
  rw [Fact_EV, List.length_map, numberFrom_length, recs5_length]

theorem getBM_setBM (r : Row) (w : Option Q) : getBM (setBM r w) = w := rfl

theorem getER_setER (r : Row) (w : Option Q) : getER (setER r w) = w := rfl

theorem getER_setBM (r : Row) (w : Option Q) : getER (setBM r w) = getER r := rfl

theorem getBM_setER (r : Row) (w : Option Q) : getBM (setER r w) = getBM r := rfl

theorem mmKey_setBM (r : Row) (w : Option Q) : mmKey (setBM r w) = mmKey r := rfl

theorem mmKey_setER (r : Row) (w : Option Q) : mmKey (setER r w) = mmKey r := rfl

theorem mKey_setBM (r : Row) (w : Option Q) : mKey (setBM r w) = mKey r := rfl

theorem mKey_setER (r : Row) (w : Option Q) : mKey (setER r w) = mKey r := rfl

theorem mmKey_zeroToNull (r : Row) : mmKey (zeroToNullRow r) = mmKey r := rfl

theorem mKey_zeroToNull (r : Row) : mKey (zeroToNullRow r) = mKey r := rfl

theorem zeroToNull_er (r : Row) (v : Q) (hv : r.electric_range = some v)
    (hz : v ≠ intQ 0) : (zeroToNullRow r).electric_range = some v := by
  show replaceZero r.electric_range = some v
  rw [hv, replaceZero, if_neg (fun h => hz (Option.some.inj h))]

theorem zeroToNull_bm (r : Row) (v : Q) (hv : r.base_msrp = some v)
    (hz : v ≠ intQ 0) : (zeroToNullRow r).base_msrp = some v := by
  show replaceZero r.base_msrp = some v
  rw [hv, replaceZero, if_neg (fun h => hz (Option.some.inj h))]

theorem groupFillFun_shape {K : Type} [DecidableEq K] (key : Row → Option K)
    (get : Row → Option Q) (set : Row → Option Q → Row) (T : List Row) (r : Row) :
    ∃ w, groupFillFun key get set T r = set r w := by
  unfold groupFillFun
  cases key r
  · exact ⟨none, rfl⟩
  · exact ⟨_, rfl⟩

theorem globalFillFun_shape (get : Row → Option Q) (set : Row → Option Q → Row)
    (T : List Row) (r : Row) :
    ∃ w, globalFillFun get set T r = set r w := ⟨_, rfl⟩

theorem groupFill_mem_shape {K : Type} [DecidableEq K] (key : Row → Option K)
    (get : Row → Option Q) (set : Row → Option Q → Row) (T : List Row) :
    ∀ q ∈ groupFill key get set T, ∃ p ∈ T, ∃ w, q = set p w := by
  intro q hq
  obtain ⟨p, hp, rfl⟩ := List.mem_map.mp hq
  obtain ⟨w, hw⟩ := groupFillFun_shape key get set T p
  exact ⟨p, hp, w, hw⟩

theorem globalFill_mem_shape (get : Row → Option Q) (set : Row → Option Q → Row)
    (T : List Row) :
    ∀ q ∈ globalFill get set T, ∃ p ∈ T, ∃ w, q = set p w := by
  intro q hq
  obtain ⟨p, hp, rfl⟩ := List.mem_map.mp hq
  exact ⟨p, hp, _, rfl⟩

theorem groupFillFun_get_keep {K : Type} [DecidableEq K] (key : Row → Option K)
    (get : Row → Option Q) (set : Row → Option Q → Row) (T : List Row) (r : Row)
    (k : K) (v : Q) (hk : key r = some k) (hv : get r = some v) :
    groupFillFun key get set T r = set r (some v) := by
  simp only [groupFillFun, hk, hv]
  rfl

theorem globalFillFun_get_keep (get : Row → Option Q) (set : Row → Option Q → Row)
    (T : List Row) (r : Row) (v : Q) (hv : get r = some v) :
    globalFillFun get set T r = set r (some v) := by
  simp only [globalFillFun, hv]
  rfl

theorem globalFill_all_some (get : Row → Option Q) (set : Row → Option Q → Row)
    (T : List Row) (hget : ∀ r w, get (set r w) = w)
    (hex : ∃ p ∈ T, ∃ v, get p = some v) :
    ∀ q ∈ globalFill get set T, get q ≠ none := by
  obtain ⟨p0, hp0, v, hv⟩ := hex
  have hne : T.filterMap get ≠ [] :=
    List.ne_nil_of_mem (List.mem_filterMap.mpr ⟨p0, hp0, hv⟩)
  obtain ⟨m, hm⟩ := median?_isSome _ hne
  intro q hq
  obtain ⟨p, hp, rfl⟩ := List.mem_map.mp hq
  show get (set p (fillWith (get p) (median? (T.filterMap get)))) ≠ none
  rw [hget, hm]
  cases hg : get p <;> simp [fillWith]

theorem make_setBM (r : Row) (w : Option Q) : (setBM r w).make = r.make := rfl

theorem model_setBM (r : Row) (w : Option Q) : (setBM r w).model = r.model := rfl

theorem make_setER (r : Row) (w : Option Q) : (setER r w).make = r.make := rfl

theorem model_setER (r : Row) (w : Option Q) : (setER r w).model = r.model := rfl

/-- A column fill leaves no null in its column provided some row of its
input has both group keys present and a present value: that row's value
survives the two group fills (its group keys are never null), so the global
median exists and the final `fillna` covers every remaining null. -/

theorem fillCol_all_some (get : Row → Option Q) (set : Row → Option Q → Row)
    (hget : ∀ r w, get (set r w) = w)
    (hm : ∀ r w, mKey (set r w) = mKey r)
    (T : List Row)
    (hex : ∃ r ∈ T, (∃ a, r.make = some a) ∧ (∃ b, r.model = some b) ∧ ∃ v, get r = some v) :
    ∀ q ∈ fillCol get set T, get q ≠ none := by
  obtain ⟨r, hr, ⟨a, ha⟩, ⟨b, hb⟩, v, hv⟩ := hex
  have hmmr : mmKey r = some (a, b) := by simp [mmKey, ha, hb]
  have hmr : mKey r = some a := by simp [mKey, ha]
  have h1mem := List.mem_map_of_mem (groupFillFun mmKey get set T) hr
  have h1eq : groupFillFun mmKey get set T r = set r (some v) :=
    groupFillFun_get_keep mmKey get set T r (a, b) v hmmr hv
  rw [h1eq] at h1mem
  have h1get : get (set r (some v)) = some v := hget r (some v)
  have h1m : mKey (set r (some v)) = some a := by rw [hm]; exact hmr
  have h2mem := List.mem_map_of_mem
    (groupFillFun mKey get set (groupFill mmKey get set T)) h1mem
  have h2eq : groupFillFun mKey get set (groupFill mmKey get set T) (set r (some v)) =
      set (set r (some v)) (some v) :=
    groupFillFun_get_keep mKey get set _ _ a v h1m h1get
  rw [h2eq] at h2mem
  have hall := globalFill_all_some get set
    (groupFill mKey get set (groupFill mmKey get set T)) hget
    ⟨set (set r (some v)) (some v), h2mem, v, hget _ _⟩
  exact fun q hq => hall q hq

/-- A column fill only ever writes through its own setter, so any other
column with no null anywhere keeps that property. -/

theorem fillCol_preserves_all (get : Row → Option Q) (set : Row → Option Q → Row)
    (get2 : Row → Option Q) (hget2 : ∀ r w, get2 (set r w) = get2 r)
    (T : List Row) (hall : ∀ p ∈ T, get2 p ≠ none) :
    ∀ q ∈ fillCol get set T, get2 q ≠ none := by
  intro q hq
  obtain ⟨p1, hp1, w3, rfl⟩ := globalFill_mem_shape get set _ q hq
  obtain ⟨p2, hp2, w2, rfl⟩ := groupFill_mem_shape mKey get set _ p1 hp1
  obtain ⟨p3, hp3, w1, rfl⟩ := groupFill_mem_shape mmKey get set T p2 hp2
  rw [hget2, hget2, hget2]
  exact hall p3 hp3

/-- A row with present make, model and another column's value keeps all
three through a fill of a different column. -/

theorem fillCol_preserves_witness (get : Row → Option Q) (set : Row → Option Q → Row)
    (get2 : Row → Option Q) (hget2 : ∀ r w, get2 (set r w) = get2 r)
    (hmake : ∀ r w, (set r w).make = r.make)
    (hmodel : ∀ r w, (set r w).model = r.model)
    (T : List Row) (r : Row) (hr : r ∈ T) (a b : String) (v : Q)
    (ha : r.make = some a) (hb : r.model = some b) (hv : get2 r = some v) :
    ∃ q ∈ fillCol get set T, q.make = some a ∧ q.model = some b ∧ get2 q = some v := by
  obtain ⟨w1, hw1⟩ := groupFillFun_shape mmKey get set T r
  have h1mem := List.mem_map_of_mem (groupFillFun mmKey get set T) hr
  rw [hw1] at h1mem
  have ha1 : (set r w1).make = some a := by rw [hmake]; exact ha
  have hb1 : (set r w1).model = some b := by rw [hmodel]; exact hb
  have hv1 : get2 (set r w1) = some v := by rw [hget2]; exact hv
  obtain ⟨w2, hw2⟩ :=
    groupFillFun_shape mKey get set (groupFill mmKey get set T) (set r w1)
  have h2mem := List.mem_map_of_mem
    (groupFillFun mKey get set (groupFill mmKey get set T)) h1mem
  rw [hw2] at h2mem
  have ha2 : (set (set r w1) w2).make = some a := by rw [hmake]; exact ha1
  have hb2 : (set (set r w1) w2).model = some b := by rw [hmodel]; exact hb1
  have hv2 : get2 (set (set r w1) w2) = some v := by rw [hget2]; exact hv1
  obtain ⟨w3, hw3⟩ := globalFillFun_shape get set
    (groupFill mKey get set (groupFill mmKey get set T)) (set (set r w1) w2)
  have h3mem := List.mem_map_of_mem (globalFillFun get set
    (groupFill mKey get set (groupFill mmKey get set T))) h2mem
  rw [hw3] at h3mem
  refine ⟨set (set (set r w1) w2) w3, h3mem, ?_, ?_, ?_⟩
  · rw [hmake]; exact ha2
  · rw [hmodel]; exact hb2
  · rw [hget2]; exact hv2

/-- C1 counterexample: the claim promises a non-null `electric_range`
whenever one non-null, non-zero observation exists anywhere in the table.
In this one-row table such an observation exists (150 in the row itself),
yet after the Imputer the column is null: the row's `make` is null, so the
(make, model) group transform of line 87 hands it null, the make group
transform does the same, and the global median is then taken of an
all-null column. -/

theorem imputer_completeness_fails_on_null_make :
    (nullMakeRow.electric_range = some (intQ 150) ∧ intQ 150 ≠ intQ 0) ∧
    (imputeTable [nullMakeRow]).map (fun r => r.electric_range) = [none] := by
  constructor
  · exact ⟨rfl, by decide⟩
  · decide

/-- C1 (amended): after the Imputer runs, `electric_range` and `base_msrp`
are non-null on every row, provided at least one non-null, non-zero
observation for each column exists in a row whose `make` and `model` are
both non-null.  (The claim as frozen omits the make/model proviso and is
refuted by `imputer_completeness_fails_on_null_make`: pandas `groupby`
drops null-keyed rows and the `transform` nulls their values.) -/

theorem imputer_completeness_amended (t : List Row)
    (hbm : ∃ r ∈ t, (∃ a, r.make = some a) ∧ (∃ b, r.model = some b) ∧
      ∃ v, r.base_msrp = some v ∧ v ≠ intQ 0)
    (her : ∃ r ∈ t, (∃ a, r.make = some a) ∧ (∃ b, r.model = some b) ∧
      ∃ v, r.electric_range = some v ∧ v ≠ intQ 0) :
    ∀ q ∈ imputeTable t, q.electric_range ≠ none ∧ q.base_msrp ≠ none := by
  obtain ⟨rb, hrb, ⟨ab, hab⟩, ⟨bb, hbb⟩, vb, hvb, hvbz⟩ := hbm
  obtain ⟨re, hre, ⟨ae, hae⟩, ⟨be, hbe⟩, ve, hve, hvez⟩ := her
  have hrB0 : zeroToNullRow rb ∈ t.map zeroToNullRow :=
    List.mem_map_of_mem zeroToNullRow hrb
  have hrB0make : (zeroToNullRow rb).make = some ab := hab
  have hrB0model : (zeroToNullRow rb).model = some bb := hbb
  have hrB0bm : (zeroToNullRow rb).base_msrp = some vb := zeroToNull_bm rb vb hvb hvbz
  have hbmT3 : ∀ q ∈ fillCol getBM setBM (t.map zeroToNullRow), getBM q ≠ none :=
    fillCol_all_some getBM setBM getBM_setBM mKey_setBM _
      ⟨zeroToNullRow rb, hrB0, ⟨ab, hrB0make⟩, ⟨bb, hrB0model⟩, vb, hrB0bm⟩
  have hbmFinal : ∀ q ∈ imputeTable t, getBM q ≠ none := by
    have h := fillCol_preserves_all getER setER getBM getBM_setER _ hbmT3
    exact fun q hq => h q hq
  have hrE0 : zeroToNullRow re ∈ t.map zeroToNullRow :=
    List.mem_map_of_mem zeroToNullRow hre
  have hrE0make : (zeroToNullRow re).make = some ae := hae
  have hrE0model : (zeroToNullRow re).model = some be := hbe
  have hrE0er : (zeroToNullRow re).electric_range = some ve := zeroToNull_er re ve hve hvez
  obtain ⟨q3, hq3, hq3make, hq3model, hq3er⟩ :=
    fillCol_preserves_witness getBM setBM getER getER_setBM make_setBM model_setBM
      (t.map zeroToNullRow) (zeroToNullRow re) hrE0 ae be ve hrE0make hrE0model hrE0er
  have herFinal : ∀ q ∈ imputeTable t, getER q ≠ none := by
    have h := fillCol_all_some getER setER getER_setER mKey_setER _
      ⟨q3, hq3, ⟨ae, hq3make⟩, ⟨be, hq3model⟩, ve, hq3er⟩
    exact fun q hq => h q hq
  exact fun q hq => ⟨herFinal q hq, hbmFinal q hq⟩

/-- A TESLA MODEL 3 row with both numeric observations present, for the
imputer witnesses. -/

theorem imputer_completeness_witness :
    (∃ r ∈ [groupedRow], (∃ a, r.make = some a) ∧ (∃ b, r.model = some b) ∧
      ∃ v, r.base_msrp = some v ∧ v ≠ intQ 0) ∧
    (∃ r ∈ [groupedRow], (∃ a, r.make = some a) ∧ (∃ b, r.model = some b) ∧
      ∃ v, r.electric_range = some v ∧ v ≠ intQ 0) ∧
    ∀ q ∈ imputeTable [groupedRow], q.electric_range ≠ none ∧ q.base_msrp ≠ none :=
  ⟨⟨groupedRow, List.mem_cons_self _ _, ⟨"TESLA", rfl⟩, ⟨"MODEL 3", rfl⟩,
      intQ 45000, rfl, by decide⟩,
   ⟨groupedRow, List.mem_cons_self _ _, ⟨"TESLA", rfl⟩, ⟨"MODEL 3", rfl⟩,
      intQ 150, rfl, by decide⟩,
   imputer_completeness_amended [groupedRow]
     ⟨groupedRow, List.mem_cons_self _ _, ⟨"TESLA", rfl⟩, ⟨"MODEL 3", rfl⟩,
       intQ 45000, rfl, by decide⟩
     ⟨groupedRow, List.mem_cons_self _ _, ⟨"TESLA", rfl⟩, ⟨"MODEL 3", rfl⟩,
       intQ 150, rfl, by decide⟩⟩

/-- All columns of `b` other than `electric_range` and `base_msrp` agree
with those of `a`: the frame the Imputer must respect. -/

theorem sameExceptNumeric_self (a : Row) : sameExceptNumeric a a :=
  ⟨rfl, rfl, rfl, rfl, rfl, rfl, rfl, rfl, rfl, rfl, rfl, rfl, rfl, rfl, rfl, rfl, rfl⟩

theorem sameExceptNumeric_trans {a b c : Row}
    (h1 : sameExceptNumeric a b) (h2 : sameExceptNumeric b c) :
    sameExceptNumeric a c := by
  obtain ⟨e1, e2, e3, e4, e5, e6, e7, e8, e9, e10, e11, e12, e13, e14, e15, e16, e17⟩ := h1
  obtain ⟨f1, f2, f3, f4, f5, f6, f7, f8, f9, f10, f11, f12, f13, f14, f15, f16, f17⟩ := h2
  exact ⟨f1.trans e1, f2.trans e2, f3.trans e3, f4.trans e4, f5.trans e5, f6.trans e6,
         f7.trans e7, f8.trans e8, f9.trans e9, f10.trans e10, f11.trans e11,
         f12.trans e12, f13.trans e13, f14.trans e14, f15.trans e15, f16.trans e16,
         f17.trans e17⟩

theorem sameExceptNumeric_zeroToNull (a : Row) : sameExceptNumeric a (zeroToNullRow a) :=
  ⟨rfl, rfl, rfl, rfl, rfl, rfl, rfl, rfl, rfl, rfl, rfl, rfl, rfl, rfl, rfl, rfl, rfl⟩

theorem sameExceptNumeric_setBM (a : Row) (w : Option Q) :
    sameExceptNumeric a (setBM a w) :=
  ⟨rfl, rfl, rfl, rfl, rfl, rfl, rfl, rfl, rfl, rfl, rfl, rfl, rfl, rfl, rfl, rfl, rfl⟩

theorem sameExceptNumeric_setER (a : Row) (w : Option Q) :
    sameExceptNumeric a (setER a w) :=
  ⟨rfl, rfl, rfl, rfl, rfl, rfl, rfl, rfl, rfl, rfl, rfl, rfl, rfl, rfl, rfl, rfl, rfl⟩

/-- The per-row function of the whole Imputer (six stages applied to the
row) changes no column outside the two treated numeric ones, whatever the
six tables the stages compute their medians against. -/

theorem imputeFun_sen (T0 T1 T2 T3 T4 T5 : List Row) (r : Row) :
    sameExceptNumeric r
      (globalFillFun getER setER T5 (groupFillFun mKey getER setER T4
        (groupFillFun mmKey getER setER T3 (globalFillFun getBM setBM T2
          (groupFillFun mKey getBM setBM T1 (groupFillFun mmKey getBM setBM T0
            (zeroToNullRow r))))))) := by
  obtain ⟨w1, e1⟩ := groupFillFun_shape mmKey getBM setBM T0 (zeroToNullRow r)
  rw [e1]
  obtain ⟨w2, e2⟩ := groupFillFun_shape mKey getBM setBM T1 (setBM (zeroToNullRow r) w1)
  rw [e2]
  obtain ⟨w3, e3⟩ := globalFillFun_shape getBM setBM T2
    (setBM (setBM (zeroToNullRow r) w1) w2)
  rw [e3]
  obtain ⟨w4, e4⟩ := groupFillFun_shape mmKey getER setER T3
    (setBM (setBM (setBM (zeroToNullRow r) w1) w2) w3)
  rw [e4]
  obtain ⟨w5, e5⟩ := groupFillFun_shape mKey getER setER T4
    (setER (setBM (setBM (setBM (zeroToNullRow r) w1) w2) w3) w4)
  rw [e5]
  obtain ⟨w6, e6⟩ := globalFillFun_shape getER setER T5
    (setER (setER (setBM (setBM (setBM (zeroToNullRow r) w1) w2) w3) w4) w5)
  rw [e6]
  exact sameExceptNumeric_trans (sameExceptNumeric_zeroToNull r)
    (sameExceptNumeric_trans (sameExceptNumeric_setBM _ w1)
      (sameExceptNumeric_trans (sameExceptNumeric_setBM _ w2)
        (sameExceptNumeric_trans (sameExceptNumeric_setBM _ w3)
          (sameExceptNumeric_trans (sameExceptNumeric_setER _ w4)
            (sameExceptNumeric_trans (sameExceptNumeric_setER _ w5)
              (sameExceptNumeric_setER _ w6))))))

/-- The per-row Imputer function keeps a present, non-zero
`electric_range` of a row with present make and model. -/

theorem imputeFun_er_keep (T0 T1 T2 T3 T4 T5 : List Row) (r : Row) (a b : String)
    (v : Q) (ha : r.make = some a) (hb : r.model = some b)
    (hv : r.electric_range = some v) (hz : v ≠ intQ 0) :
    (globalFillFun getER setER T5 (groupFillFun mKey getER setER T4
      (groupFillFun mmKey getER setER T3 (globalFillFun getBM setBM T2
        (groupFillFun mKey getBM setBM T1 (groupFillFun mmKey getBM setBM T0
          (zeroToNullRow r))))))).electric_range = some v := by
  obtain ⟨w1, e1⟩ := groupFillFun_shape mmKey getBM setBM T0 (zeroToNullRow r)
  rw [e1]
  obtain ⟨w2, e2⟩ := groupFillFun_shape mKey getBM setBM T1 (setBM (zeroToNullRow r) w1)
  rw [e2]
  obtain ⟨w3, e3⟩ := globalFillFun_shape getBM setBM T2
    (setBM (setBM (zeroToNullRow r) w1) w2)
  rw [e3]
  have hs3er : getER (setBM (setBM (setBM (zeroToNullRow r) w1) w2) w3) = some v := by
    rw [getER_setBM, getER_setBM, getER_setBM]
    exact zeroToNull_er r v hv hz
  have hs3mm : mmKey (setBM (setBM (setBM (zeroToNullRow r) w1) w2) w3) = some (a, b) := by
    rw [mmKey_setBM, mmKey_setBM, mmKey_setBM, mmKey_zeroToNull]
    simp [mmKey, ha, hb]
  have hs3m : mKey (setBM (setBM (setBM (zeroToNullRow r) w1) w2) w3) = some a := by
    rw [mKey_setBM, mKey_setBM, mKey_setBM, mKey_zeroToNull]
    simp [mKey, ha]
  rw [groupFillFun_get_keep mmKey getER setER T3 _ (a, b) v hs3mm hs3er]
  rw [groupFillFun_get_keep mKey getER setER T4 _ a v
    (by rw [mKey_setER]; exact hs3m) (by rw [getER_setER])]
  rw [globalFillFun_get_keep getER setER T5 _ v (by rw [getER_setER])]
  rfl

/-- The per-row Imputer function keeps a present, non-zero `base_msrp` of
a row with present make and model. -/

theorem imputeFun_bm_keep (T0 T1 T2 T3 T4 T5 : List Row) (r : Row) (a b : String)
    (u : Q) (ha : r.make = some a) (hb : r.model = some b)
    (hu : r.base_msrp = some u) (hz : u ≠ intQ 0) :
    (globalFillFun getER setER T5 (groupFillFun mKey getER setER T4
      (groupFillFun mmKey getER setER T3 (globalFillFun getBM setBM T2
        (groupFillFun mKey getBM setBM T1 (groupFillFun mmKey getBM setBM T0
          (zeroToNullRow r))))))).base_msrp = some u := by
  have h0mm : mmKey (zeroToNullRow r) = some (a, b) := by
    rw [mmKey_zeroToNull]; simp [mmKey, ha, hb]
  have h0m : mKey (zeroToNullRow r) = some a := by
    rw [mKey_zeroToNull]; simp [mKey, ha]
  have h0bm : getBM (zeroToNullRow r) = some u := zeroToNull_bm r u hu hz
  rw [groupFillFun_get_keep mmKey getBM setBM T0 _ (a, b) u h0mm h0bm]
  rw [groupFillFun_get_keep mKey getBM setBM T1 _ a u
    (by rw [mKey_setBM]; exact h0m) (by rw [getBM_setBM])]
  rw [globalFillFun_get_keep getBM setBM T2 _ u (by rw [getBM_setBM])]
  obtain ⟨w4, e4⟩ := groupFillFun_shape mmKey getER setER T3
    (setBM (setBM (setBM (zeroToNullRow r) (some u)) (some u)) (some u))
  rw [e4]
  obtain ⟨w5, e5⟩ := groupFillFun_shape mKey getER setER T4
    (setER (setBM (setBM (setBM (zeroToNullRow r) (some u)) (some u)) (some u)) w4)
  rw [e5]
  obtain ⟨w6, e6⟩ := globalFillFun_shape getER setER T5
    (setER (setER (setBM (setBM (setBM (zeroToNullRow r) (some u)) (some u)) (some u)) w4) w5)
  rw [e6]
  rfl

/-- C10 counterexample: the claim promises every non-null, non-zero value
is left unchanged by the Imputer; on a row with a null `make` the value
150 is overwritten with null by the null-group transform of line 87. -/

theorem imputer_preservation_fails_on_null_make :
    nullMakeRow.electric_range = some (intQ 150) ∧ intQ 150 ≠ intQ 0 ∧
    (imputeTable [nullMakeRow]).map (fun r => r.electric_range) = [none] :=
  ⟨rfl, by decide, by decide⟩

/-- C10 (amended): the Imputer preserves row count, modifies no column
other than `electric_range` and `base_msrp`, and leaves every non-null,
non-zero value of the two treated columns unchanged on rows whose `make`
and `model` are both non-null.  (The claim as frozen promises the latter
for every row and is refuted by `imputer_preservation_fails_on_null_make`:
pandas `groupby` drops null-keyed rows and the `transform` nulls their
values.) -/

theorem imputer_frame_of_nonnull_keys (t : List Row) (i : Nat) (r r2 : Row)
    (hr : t.get? i = some r) (hr2 : (imputeTable t).get? i = some r2) :
    (imputeTable t).length = t.length ∧ sameExceptNumeric r r2 ∧
    ((∃ a, r.make = some a) → (∃ b, r.model = some b) →
      (∀ v, r.electric_range = some v → v ≠ intQ 0 → r2.electric_range = some v) ∧
      (∀ u, r.base_msrp = some u → u ≠ intQ 0 → r2.base_msrp = some u)) := by
  have hlen : (imputeTable t).length = t.length := by
    simp [imputeTable, fill_missing, fillCol, globalFill, groupFill]
  simp only [imputeTable, fill_missing, fillCol, globalFill, groupFill,
    List.get?_map, hr, Option.map_some'] at hr2
  rw [Option.some_inj] at hr2
  subst hr2
  refine ⟨hlen, imputeFun_sen _ _ _ _ _ _ r, ?_⟩
  rintro ⟨a, ha⟩ ⟨b, hb⟩
  exact ⟨fun v hv hz => imputeFun_er_keep _ _ _ _ _ _ r a b v ha hb hv hz,
         fun u hu hz => imputeFun_bm_keep _ _ _ _ _ _ r a b u ha hb hu hz⟩

/-- Witness for `imputer_frame_of_nonnull_keys` at a concrete one-row
table, where the Imputer leaves the row untouched. -/

theorem imputer_frame_witness :
    (imputeTable [groupedRow]).length = [groupedRow].length ∧
    sameExceptNumeric groupedRow groupedRow ∧
    ((∃ a, groupedRow.make = some a) → (∃ b, groupedRow.model = some b) →
      (∀ v, groupedRow.electric_range = some v → v ≠ intQ 0 →
        groupedRow.electric_range = some v) ∧
      (∀ u, groupedRow.base_msrp = some u → u ≠ intQ 0 →
        groupedRow.base_msrp = some u)) :=
  imputer_frame_of_nonnull_keys [groupedRow] 0 groupedRow groupedRow (by decide) (by decide)

/-- C2: every dimension table holds the distinct defining-column
combinations of its source record set (no two rows share identical values
across all defining columns, null matching null), with surrogate keys
exactly `1..N` (N the distinct-combination count) assigned in
first-occurrence order; the fact table's `ev_id` is `1..row count` and its
rows are pairwise distinct. -/

theorem dimension_uniqueness_and_key_density (t : List Row) :
    DimOK (Dim_Vehicle_model t) ((recs0 t).map fun p => vmKey p.1) ∧
    DimOK (Dim_Location t) ((recs1 t).map fun p => locKey p.1) ∧
    DimOK (Dim_Policy_Eligibility t) ((recs2 t).map fun p => polKey p.1) ∧
    DimOK (Dim_District t) ((recs3 t).map fun p => distKey p.1) ∧
    DimOK (Dim_Utility t) ((recs4 t).map fun p => utilKey p.1) ∧
    (Fact_EV t).map FactRow.ev_id = List.range' 1 t.length ∧
    (Fact_EV t).Nodup :=
  ⟨dimTable_ok _, dimTable_ok _, dimTable_ok _, dimTable_ok _, dimTable_ok _,
   Fact_EV_ev_ids t, Fact_EV_nodup t⟩

/-- C3: after the five left joins every record carries five foreign keys,
none of them null, and each of its five defining-column combinations
matches exactly one row of the corresponding dimension table (null
defining columns matching null-to-null). -/

theorem join_completeness (t : List Row) :
    ∀ q ∈ recs5 t, (q.2.length = 5 ∧ ∀ o ∈ q.2, o ≠ none) ∧
      (matchIds (Dim_Vehicle_model t) (vmKey q.1)).length = 1 ∧
      (matchIds (Dim_Location t) (locKey q.1)).length = 1 ∧
      (matchIds (Dim_Policy_Eligibility t) (polKey q.1)).length = 1 ∧
      (matchIds (Dim_District t) (distKey q.1)).length = 1 ∧
      (matchIds (Dim_Utility t) (utilKey q.1)).length = 1 := by
  intro q hq
  have hfst : q.1 ∈ t := by
    have h1 : q.1 ∈ (recs5 t).map Prod.fst := List.mem_map_of_mem Prod.fst hq
    rwa [recs5_map_fst] at h1
  refine ⟨recs5_ids t q hq, ?_, ?_, ?_, ?_, ?_⟩
  · obtain ⟨i, hi⟩ := matchIds_of_fst_mem vmKey (recs0 t) q.1
      (by rw [recs0_map_fst]; exact hfst)
    show (matchIds (dimOf vmKey (recs0 t)) (vmKey q.1)).length = 1
    rw [hi]; rfl
  · obtain ⟨i, hi⟩ := matchIds_of_fst_mem locKey (recs1 t) q.1
      (by rw [recs1_map_fst]; exact hfst)
    show (matchIds (dimOf locKey (recs1 t)) (locKey q.1)).length = 1
    rw [hi]; rfl
  · obtain ⟨i, hi⟩ := matchIds_of_fst_mem polKey (recs2 t) q.1
      (by rw [recs2_map_fst]; exact hfst)
    show (matchIds (dimOf polKey (recs2 t)) (polKey q.1)).length = 1
    rw [hi]; rfl
  · obtain ⟨i, hi⟩ := matchIds_of_fst_mem distKey (recs3 t) q.1
      (by rw [recs3_map_fst]; exact hfst)
    show (matchIds (dimOf distKey (recs3 t)) (distKey q.1)).length = 1
    rw [hi]; rfl
  · obtain ⟨i, hi⟩ := matchIds_of_fst_mem utilKey (recs4 t) q.1
      (by rw [recs4_map_fst]; exact hfst)
    show (matchIds (dimOf utilKey (recs4 t)) (utilKey q.1)).length = 1
    rw [hi]; rfl

/-- The fully joined record of the one-row table `[blankRow]`. -/

theorem join_completeness_witness :
    blankRecd ∈ recs5 [blankRow] ∧
    ((blankRecd.2.length = 5 ∧ ∀ o ∈ blankRecd.2, o ≠ none) ∧
     (matchIds (Dim_Vehicle_model [blankRow]) (vmKey blankRecd.1)).length = 1 ∧
     (matchIds (Dim_Location [blankRow]) (locKey blankRecd.1)).length = 1 ∧
     (matchIds (Dim_Policy_Eligibility [blankRow]) (polKey blankRecd.1)).length = 1 ∧
     (matchIds (Dim_District [blankRow]) (distKey blankRecd.1)).length = 1 ∧
     (matchIds (Dim_Utility [blankRow]) (utilKey blankRecd.1)).length = 1) :=
  ⟨by decide, join_completeness [blankRow] blankRecd (by decide)⟩

theorem transform_length (t : List Row) : (transform t).length = t.length := by
  simp [transform, encodeTable, imputeTable, fill_missing, fillCol, globalFill,
        groupFill, geoTable]

theorem normalizeTable_length (l : List RawRow) (rows : List Row)
    (h : normalizeTable l = some rows) : rows.length = l.length := by
  induction l generalizing rows with
  | nil =>
    simp only [normalizeTable, Option.some_inj] at h
    subst h
    rfl
  | cons r rs ih =>
    simp only [normalizeTable] at h
    cases hr : normalizeRow r with
    | none => rw [hr] at h; exact absurd h (by simp)
    | some nr =>
      rw [hr] at h
      cases hrs : normalizeTable rs with
      | none => rw [hrs] at h; exact absurd h (by simp)
      | some nrs =>
        rw [hrs] at h
        simp only [Option.some_inj] at h
        subst h
        simp [ih nrs hrs]

/-- C4: each of the five dimension joins preserves the record count (no
fan-out, no drop) and the fact table has exactly one row per source row
retained by the jurisdiction filter. -/

theorem row_count_preservation (traw : List RawRow) (rows : List Row)
    (h : normalizeTable (jurisdictionFilter traw) = some rows) :
    (recs1 (transform rows)).length = (recs0 (transform rows)).length ∧
    (recs2 (transform rows)).length = (recs1 (transform rows)).length ∧
    (recs3 (transform rows)).length = (recs2 (transform rows)).length ∧
    (recs4 (transform rows)).length = (recs3 (transform rows)).length ∧
    (recs5 (transform rows)).length = (recs4 (transform rows)).length ∧
    (Fact_EV (transform rows)).length = (jurisdictionFilter traw).length := by
  refine ⟨recs1_length_step _, recs2_length_step _, recs3_length_step _,
          recs4_length_step _, recs5_length_step _, ?_⟩
  rw [Fact_EV_length, transform_length, normalizeTable_length _ rows h]

/-- The normalized table of the two scenario rows. -/

theorem row_count_preservation_witness :
    normalizeTable (jurisdictionFilter [c7row1, c7row2]) = some scenarioRows ∧
    ((recs1 (transform scenarioRows)).length = (recs0 (transform scenarioRows)).length ∧
     (recs2 (transform scenarioRows)).length = (recs1 (transform scenarioRows)).length ∧
     (recs3 (transform scenarioRows)).length = (recs2 (transform scenarioRows)).length ∧
     (recs4 (transform scenarioRows)).length = (recs3 (transform scenarioRows)).length ∧
     (recs5 (transform scenarioRows)).length = (recs4 (transform scenarioRows)).length ∧
     (Fact_EV (transform scenarioRows)).length = (jurisdictionFilter [c7row1, c7row2]).length) :=
  ⟨by decide, row_count_preservation [c7row1, c7row2] scenarioRows (by decide)⟩

/-- C5: the Categorical Encoder performs exact-string substitution on
`ev_type` and `cafv_eligibility` — the five known literals map to their
fixed codes, any other value (and null) passes through unchanged, and the
encoder is total (no error is raised). -/

theorem encoder_exact_substitution (t : List Row) (i : Nat) (r r2 : Row)
    (hr : t.get? i = some r) (hr2 : (encodeTable t).get? i = some r2) :
    (r.ev_type = some "Battery Electric Vehicle (BEV)" → r2.ev_type = some "1") ∧
    (r.ev_type = some "Plug-in Hybrid Electric Vehicle (PHEV)" → r2.ev_type = some "2") ∧
    (∀ s, r.ev_type = some s → s ≠ "Battery Electric Vehicle (BEV)" →
      s ≠ "Plug-in Hybrid Electric Vehicle (PHEV)" → r2.ev_type = some s) ∧
    (r.ev_type = none → r2.ev_type = none) ∧
    (r.cafv_eligibility = some "Clean Alternative Fuel Vehicle Eligible" →
      r2.cafv_eligibility = some "1") ∧
    (r.cafv_eligibility = some "Not eligible due to low battery range" →
      r2.cafv_eligibility = some "2") ∧
    (r.cafv_eligibility = some "Eligibility unknown as battery range has not been researched" →
      r2.cafv_eligibility = some "3") ∧
    (∀ s, r.cafv_eligibility = some s → s ≠ "Clean Alternative Fuel Vehicle Eligible" →
      s ≠ "Not eligible due to low battery range" →
      s ≠ "Eligibility unknown as battery range has not been researched" →
      r2.cafv_eligibility = some s) ∧
    (r.cafv_eligibility = none → r2.cafv_eligibility = none) := by
  simp only [encodeTable, List.get?_map, hr, Option.map_some', Option.some_inj] at hr2
  subst hr2
  refine ⟨?_, ?_, ?_, ?_, ?_, ?_, ?_, ?_, ?_⟩
  · intro h; simp [encodeRow, h, encode_ev_type]
  · intro h; simp [encodeRow, h, encode_ev_type]
  · intro s h h1 h2; simp [encodeRow, h, encode_ev_type, h1, h2]
  · intro h; simp [encodeRow, h]
  · intro h; simp [encodeRow, h, encode_cafv_eligibility]
  · intro h; simp [encodeRow, h, encode_cafv_eligibility]
  · intro h; simp [encodeRow, h, encode_cafv_eligibility]
  · intro s h h1 h2 h3; simp [encodeRow, h, encode_cafv_eligibility, h1, h2, h3]
  · intro h; simp [encodeRow, h]

/-- A row with categorical values outside the known literal sets, from the
second scenario of the spec. -/

theorem encoder_witness :
    ([unknownRow].get? 0 = some unknownRow) ∧
    ((encodeTable [unknownRow]).get? 0 = some (encodeRow unknownRow)) ∧
    ((unknownRow.ev_type = some "Battery Electric Vehicle (BEV)" →
       (encodeRow unknownRow).ev_type = some "1") ∧
     (unknownRow.ev_type = some "Plug-in Hybrid Electric Vehicle (PHEV)" →
       (encodeRow unknownRow).ev_type = some "2") ∧
     (∀ s, unknownRow.ev_type = some s → s ≠ "Battery Electric Vehicle (BEV)" →
       s ≠ "Plug-in Hybrid Electric Vehicle (PHEV)" →
       (encodeRow unknownRow).ev_type = some s) ∧
     (unknownRow.ev_type = none → (encodeRow unknownRow).ev_type = none) ∧
     (unknownRow.cafv_eligibility = some "Clean Alternative Fuel Vehicle Eligible" →
       (encodeRow unknownRow).cafv_eligibility = some "1") ∧
     (unknownRow.cafv_eligibility = some "Not eligible due to low battery range" →
       (encodeRow unknownRow).cafv_eligibility = some "2") ∧
     (unknownRow.cafv_eligibility =
         some "Eligibility unknown as battery range has not been researched" →
       (encodeRow unknownRow).cafv_eligibility = some "3") ∧
     (∀ s, unknownRow.cafv_eligibility = some s →
       s ≠ "Clean Alternative Fuel Vehicle Eligible" →
       s ≠ "Not eligible due to low battery range" →
       s ≠ "Eligibility unknown as battery range has not been researched" →
       (encodeRow unknownRow).cafv_eligibility = some s) ∧
     (unknownRow.cafv_eligibility = none → (encodeRow unknownRow).cafv_eligibility = none)) :=
  ⟨rfl, rfl,
   encoder_exact_substitution [unknownRow] 0 unknownRow (encodeRow unknownRow) rfl rfl⟩

/-- C6: the Geo Extractor emits the first captured token of the point
pattern as `latitude` and the second as `longitude` when the (sentinel
substituted) location text matches; a null location (turned into `POINT
EMPTY`) or any non-matching text yields null latitude and longitude, with
no error raised. -/

theorem geo_extractor_behavior (t : List Row) (i : Nat) (r r2 : Row)
    (hr : t.get? i = some r) (hr2 : (geoTable t).get? i = some r2) :
    (∀ s a b, r.vehicle_location = some s → searchPoint s.toList = some (a, b) →
      r2.latitude = some a ∧ r2.longitude = some b) ∧
    (∀ s, r.vehicle_location = some s → searchPoint s.toList = none →
      r2.latitude = none ∧ r2.longitude = none) ∧
    (r.vehicle_location = none → r2.latitude = none ∧ r2.longitude = none) := by
  simp only [geoTable, List.get?_map, hr, Option.map_some', Option.some_inj] at hr2
  subst hr2
  refine ⟨?_, ?_, ?_⟩
  · intro s a b hs hm
    have hloc : locOrEmpty r = s := by simp [locOrEmpty, hs]
    rw [geoRow, hloc, hm]
    exact ⟨rfl, rfl⟩
  · intro s hs hm
    have hloc : locOrEmpty r = s := by simp [locOrEmpty, hs]
    rw [geoRow, hloc, hm]
    exact ⟨rfl, rfl⟩
  · intro hs
    have hloc : locOrEmpty r = "POINT EMPTY" := by simp [locOrEmpty, hs]
    have hm : searchPoint (locOrEmpty r).toList = none := by rw [hloc]; decide
    rw [geoRow, hm]
    exact ⟨rfl, rfl⟩

/-- A row carrying the scenario's point text. -/

theorem geo_extractor_witness :
    ([locRow].get? 0 = some locRow) ∧
    ((geoTable [locRow]).get? 0 = some (geoRow locRow)) ∧
    ((∀ s a b, locRow.vehicle_location = some s → searchPoint s.toList = some (a, b) →
       (geoRow locRow).latitude = some a ∧ (geoRow locRow).longitude = some b) ∧
     (∀ s, locRow.vehicle_location = some s → searchPoint s.toList = none →
       (geoRow locRow).latitude = none ∧ (geoRow locRow).longitude = none) ∧
     (locRow.vehicle_location = none →
       (geoRow locRow).latitude = none ∧ (geoRow locRow).longitude = none)) :=
  ⟨rfl, rfl, geo_extractor_behavior [locRow] 0 locRow (geoRow locRow) rfl rfl⟩

/-- C7: on the two scenario rows (a BEV TESLA MODEL 3 2020 with zero price,
range 150 and a parsable point, plus a TESLA MODEL 3 2020 with price
45000), the pipeline imputes the first row's `base_msrp` to 45000 — the
(make, model) group median — keeps its range 150, encodes its `ev_type` to
`1`, and extracts latitude `-122.3` and longitude `47.6`. -/

theorem scenario_tesla_model3 :
    (normalizeTable (jurisdictionFilter [c7row1, c7row2])).map (fun rows =>
        (transform rows).map fun r => (r.base_msrp, r.electric_range))
      = some [(some (intQ 45000), some (intQ 150)),
              (some (intQ 45000), some (intQ 200))] ∧
    (normalizeTable (jurisdictionFilter [c7row1, c7row2])).map (fun rows =>
        (transform rows).map fun r => (r.ev_type, r.latitude, r.longitude))
      = some [(some "1", some "-122.3", some "47.6"),
              (some "2", none, none)] ∧
    median? [intQ 45000] = some (intQ 45000) :=
  ⟨by decide, by decide, by decide⟩

theorem normalizeRow_none_er (r : RawRow) (s : String) (hs : r.electric_range = some s)
    (hp : parseFloat? s = none) : normalizeRow r = none := by
  simp [normalizeRow, castFloat, hs, hp]

theorem normalizeRow_none_bm (r : RawRow) (s : String) (hs : r.base_msrp = some s)
    (hp : parseFloat? s = none) : normalizeRow r = none := by
  cases h1 : castFloat r.electric_range <;>
    simp [normalizeRow, castFloat, hs, hp, h1]

theorem normalizeRow_none_my (r : RawRow) (s : String) (hs : r.model_year = some s)
    (hp : parseInt? s = none) : normalizeRow r = none := by
  cases h1 : castFloat r.electric_range <;>
    cases h2 : castFloat r.base_msrp <;>
      simp [normalizeRow, castInt, hs, hp, h1, h2]

theorem normalizeTable_none (l : List RawRow) (r : RawRow) (hr : r ∈ l)
    (hnone : normalizeRow r = none) : normalizeTable l = none := by
  induction l with
  | nil => simp at hr
  | cons x xs ih =>
    rcases List.mem_cons.mp hr with rfl | hmem
    · simp [normalizeTable, hnone]
    · have htail := ih hmem
      simp only [normalizeTable, htail]
      cases normalizeRow x <;> rfl

/-- C8: a non-numeric text in `electric_range`, `base_msrp` or
`model_year` surviving the jurisdiction filter makes the Field Normalizer
cast fail; the failure is fatal and unrecovered — the pipeline produces
none of its six output tables (no partial-row skip, no partial load). -/

theorem normalizer_fatal_on_non_numeric (traw : List RawRow)
    (h : ∃ r ∈ jurisdictionFilter traw,
      (∃ s, r.electric_range = some s ∧ parseFloat? s = none) ∨
      (∃ s, r.base_msrp = some s ∧ parseFloat? s = none) ∨
      (∃ s, r.model_year = some s ∧ parseInt? s = none)) :
    normalizeTable (jurisdictionFilter traw) = none ∧ runPipeline traw = none := by
  obtain ⟨r, hr, hbad⟩ := h
  have hrow : normalizeRow r = none := by
    rcases hbad with ⟨s, hs, hp⟩ | ⟨s, hs, hp⟩ | ⟨s, hs, hp⟩
    · exact normalizeRow_none_er r s hs hp
    · exact normalizeRow_none_bm r s hs hp
    · exact normalizeRow_none_my r s hs hp
  have htab := normalizeTable_none _ r hr hrow
  refine ⟨htab, ?_⟩
  simp [runPipeline, htab]

/-- A Washington row whose `electric_range` cell is not numeric. -/

theorem normalizer_fatal_witness :
    (∃ r ∈ jurisdictionFilter [badRaw],
      (∃ s, r.electric_range = some s ∧ parseFloat? s = none) ∨
      (∃ s, r.base_msrp = some s ∧ parseFloat? s = none) ∨
      (∃ s, r.model_year = some s ∧ parseInt? s = none)) ∧
    normalizeTable (jurisdictionFilter [badRaw]) = none ∧ runPipeline [badRaw] = none :=
  ⟨by decide, normalizer_fatal_on_non_numeric [badRaw] (by decide)⟩

/-- All columns of `b` other than `vehicle_location`, `latitude` and
`longitude` agree with those of `a`: the frame of the Geo Extractor. -/

theorem geoRow_frame (r : Row) : sameExceptGeo r (geoRow r) := by
  cases hm : searchPoint (locOrEmpty r).toList with
  | none =>
    rw [geoRow, hm]
    exact ⟨rfl, rfl, rfl, rfl, rfl, rfl, rfl, rfl, rfl, rfl, rfl, rfl, rfl, rfl, rfl, rfl⟩
  | some p =>
    obtain ⟨a, b⟩ := p
    rw [geoRow, hm]
    exact ⟨rfl, rfl, rfl, rfl, rfl, rfl, rfl, rfl, rfl, rfl, rfl, rfl, rfl, rfl, rfl, rfl⟩

theorem encodeRow_frame (r : Row) : sameExceptCategorical r (encodeRow r) :=
  ⟨rfl, rfl, rfl, rfl, rfl, rfl, rfl, rfl, rfl, rfl, rfl, rfl, rfl, rfl, rfl, rfl, rfl⟩

/-- A normalized BEV row, for the encoder rewrite counterexample. -/

theorem stage_isolation_fails_columns_rewritten :
    bevRow.ev_type = some "Battery Electric Vehicle (BEV)" ∧
    (encodeTable [bevRow]).map (fun r => r.ev_type) = [some "1"] ∧
    (encodeTable [bevRow]).map (fun r => r.ev_type) ≠ [bevRow].map (fun r => r.ev_type) ∧
    blankRow.vehicle_location = none ∧
    (geoTable [blankRow]).map (fun r => r.vehicle_location) = [some "POINT EMPTY"] ∧
    (geoTable [blankRow]).map (fun r => r.vehicle_location)
      ≠ [blankRow].map (fun r => r.vehicle_location) := by
  decide

/-- C9 (amended): the stages are not isolated in the claimed sense — each
rewrites its consumed columns in place on the shared table (Geo Extractor:
`vehicle_location`; Imputer: `electric_range`, `base_msrp`; Encoder:
`ev_type`, `cafv_eligibility`), as `stage_isolation_fails_columns_rewritten`
shows concretely.  What does hold of the code: every stage preserves the
row count and leaves every column other than its own targets unchanged,
so no stage touches the columns another stage consumes downstream. -/

theorem stages_rewrite_only_their_columns (t : List Row) (i : Nat)
    (r rg ri re : Row)
    (hr : t.get? i = some r)
    (hg : (geoTable t).get? i = some rg)
    (hi : (imputeTable t).get? i = some ri)
    (he : (encodeTable t).get? i = some re) :
    ((geoTable t).length = t.length ∧ (imputeTable t).length = t.length ∧
      (encodeTable t).length = t.length) ∧
    sameExceptGeo r rg ∧ sameExceptNumeric r ri ∧ sameExceptCategorical r re := by
  refine ⟨⟨by simp [geoTable], by simp [imputeTable, fill_missing, fillCol,
    globalFill, groupFill], by simp [encodeTable]⟩, ?_, ?_, ?_⟩
  · simp only [geoTable, List.get?_map, hr, Option.map_some', Option.some_inj] at hg
    subst hg
    exact geoRow_frame r
  · simp only [imputeTable, fill_missing, fillCol, globalFill, groupFill,
      List.get?_map, hr, Option.map_some', Option.some_inj] at hi
    subst hi
    exact imputeFun_sen _ _ _ _ _ _ r
  · simp only [encodeTable, List.get?_map, hr, Option.map_some', Option.some_inj] at he
    subst he
    exact encodeRow_frame r

/-- Witness for `stages_rewrite_only_their_columns` at a concrete one-row
table. -/

theorem stages_rewrite_witness :
    ((geoTable [bevRow]).length = [bevRow].length ∧
      (imputeTable [bevRow]).length = [bevRow].length ∧
      (encodeTable [bevRow]).length = [bevRow].length) ∧
    sameExceptGeo bevRow (geoRow bevRow) ∧ sameExceptNumeric bevRow bevRow ∧
    sameExceptCategorical bevRow (encodeRow bevRow) :=
  stages_rewrite_only_their_columns [bevRow] 0 bevRow (geoRow bevRow) bevRow
    (encodeRow bevRow) (by decide) (by decide) (by decide) (by decide)

example : parseFloat? "-122.3" = some ⟨-1223, 10⟩ := by decide

example : parseFloat? "0.0" = some ⟨0, 1⟩ := by decide

example : parseFloat? "1.5e2" = some (intQ 150) := by decide

example : parseFloat? "abc" = none := by decide

example : parseInt? "2020" = some 2020 := by decide

example : searchPoint "POINT (-122.3 47.6)".toList = some ("-122.3", "47.6") := by decide

example : searchPoint "POINT EMPTY".toList = none := by decide
